import Mathlib

/-!
Verification of the DataDex on-ledger marketplace and reward system.

The development shallowly embeds the two Move modules `DataDex::Marketplace`
and `DataDex::RewardSystem`.  Addresses are modelled as `Nat`, Move resources
stored at addresses as association lists keyed by address, `u64` values as
`Nat` (the only place the spec's claims touch the 64-bit bound, the fee
product, is bounded explicitly in the corresponding theorem), and aborting
Move entry functions as `Except`-valued Lean functions: an `Except.error`
result corresponds to a Move abort, which rolls the whole transaction back,
so the pre-state is kept unchanged by construction.  Event emission only
feeds the external event sink and carries no state read by any later
operation, so event handles are not part of the embedded state.
-/

namespace DataDex

/-- Association list lookup, first binding wins (Move global storage holds at
most one resource per address, the marketplace scans also return the first
hit). -/
def lookupA {α : Type} : List (Nat × α) → Nat → Option α
  | [], _ => none
  | (k, v) :: rest, a => if k = a then some v else lookupA rest a

/-- Association list update: replaces the first binding of the key, appends a
fresh binding when the key is absent (models `move_to` / `borrow_global_mut`
writes). -/
def setA {α : Type} : List (Nat × α) → Nat → α → List (Nat × α)
  | [], k, v => [(k, v)]
  | (k', v') :: rest, k, v =>
      if k' = k then (k, v) :: rest else (k', v') :: setA rest k v

/-- The coin ledger for `AptosCoin`: balances per address, absent address means
zero balance. -/
def coinBalance (bal : List (Nat × Nat)) (a : Nat) : Nat :=
  (lookupA bal a).getD 0

/-- Embedding of `coin::withdraw`: aborts (returns `none`) when the balance is smaller than
the amount. -/
def coinWithdraw (bal : List (Nat × Nat)) (a amt : Nat) : Option (List (Nat × Nat)) :=
  if amt ≤ coinBalance bal a then some (setA bal a (coinBalance bal a - amt)) else none

/-- Embedding of `coin::deposit`. -/
def coinDeposit (bal : List (Nat × Nat)) (a amt : Nat) : List (Nat × Nat) :=
  setA bal a (coinBalance bal a + amt)

/-- Embedding of `coin::transfer<AptosCoin>(src, dst, amt)`: fallible withdraw followed by a
deposit; no partial effect on failure. -/
def coinTransfer (bal : List (Nat × Nat)) (src dst amt : Nat) :
    Option (List (Nat × Nat)) :=
  (coinWithdraw bal src amt).map (fun b => coinDeposit b dst amt)

/-- The named address `@DataDex` at which both modules keep their global
resource. -/
def dataDexAddr : Nat := 0

/-! ## The Marketplace module -/

/-- Embedding of `Marketplace::Dataset`. -/
structure Dataset where
  id : Nat
  ipfs_hash : String
  title : String
  description : String
  category : String
  price : Nat
  owner : Nat
  created_at : Nat
  total_purchases : Nat
  is_active : Bool
deriving DecidableEq

/-- Embedding of `Marketplace::Purchase`. -/
structure Purchase where
  dataset_id : Nat
  buyer : Nat
  seller : Nat
  price : Nat
  purchased_at : Nat
deriving DecidableEq

/-- Embedding of `Marketplace::UserStats`. -/
structure UserStats where
  datasets_uploaded : Nat
  datasets_purchased : Nat
  total_earned : Nat
  total_spent : Nat
deriving DecidableEq

/-- Embedding of `Marketplace::DataMarketplace` (without the three event handles, which
carry no claim-relevant state). -/
structure DataMarketplace where
  datasets : List Dataset
  purchases : List Purchase
  next_dataset_id : Nat
  platform_fee_percentage : Nat
  platform_fee_recipient : Nat
deriving DecidableEq

/-- Marketplace abort codes: the module's seven error constants plus
`missingData` for a failed `borrow_global` and `ecoin` for an abort inside
`coin::transfer`. -/
inductive MErr where
  | notInitialized
  | alreadyInitialized
  | datasetNotFound
  | insufficientBalance
  | unauthorized
  | invalidPrice
  | datasetAlreadyPurchased
  | missingData
  | ecoin
deriving DecidableEq

/-- Full marketplace-side global state: `DataMarketplace` resources by
address, `UserStats` resources by address, and the coin ledger. -/
structure MState where
  mkts : List (Nat × DataMarketplace)
  stats : List (Nat × UserStats)
  bal : List (Nat × Nat)
deriving DecidableEq

/-- Embedding of `Marketplace::find_dataset_by_id`: linear scan returning the index of the
first dataset with the given id. -/
def find_dataset_by_id : List Dataset → Nat → Option Nat
  | [], _ => none
  | d :: rest, did =>
      if d.id = did then some 0 else (find_dataset_by_id rest did).map (· + 1)

/-- Embedding of `Marketplace::has_purchased_dataset`: linear scan for a purchase with the
given buyer and dataset id. -/
def has_purchased_dataset : List Purchase → Nat → Nat → Bool
  | [], _, _ => false
  | p :: rest, buyer, did =>
      if p.buyer = buyer ∧ p.dataset_id = did then true
      else has_purchased_dataset rest buyer did

/-- The payment split of `purchase_dataset` (lines computing `platform_fee`
and `seller_amount`): integer division rounds the fee down. -/
def split (price fee_percent : Nat) : Nat × Nat :=
  (price * fee_percent / 100, price - price * fee_percent / 100)

/-- Embedding of `Marketplace::initialize`. -/
def init_marketplace (st : MState) (admin fee_percentage fee_recipient : Nat) :
    Except MErr MState :=
  if (lookupA st.mkts admin).isSome then .error .alreadyInitialized
  else if ¬ fee_percentage ≤ 20 then .error .invalidPrice
  else
    let m : DataMarketplace :=
      { datasets := [], purchases := [], next_dataset_id := 1,
        platform_fee_percentage := fee_percentage,
        platform_fee_recipient := fee_recipient }
    .ok { st with mkts := setA st.mkts admin m }

/-- A fresh zeroed `UserStats` record, as created lazily by `upload_dataset`
and `purchase_dataset`. -/
def zeroStats : UserStats :=
  { datasets_uploaded := 0, datasets_purchased := 0,
    total_earned := 0, total_spent := 0 }

/-- Embedding of `Marketplace::upload_dataset`.  The price assertion precedes the
`borrow_global_mut`, as in the source. -/
def upload_dataset (st : MState) (acct : Nat) (ipfs_hash title description category : String)
    (price now : Nat) : Except MErr MState :=
  if ¬ price > 0 then .error .invalidPrice
  else match lookupA st.mkts dataDexAddr with
  | none => .error .missingData
  | some mkt =>
      let dataset_id := mkt.next_dataset_id
      let dataset : Dataset :=
        { id := dataset_id, ipfs_hash := ipfs_hash, title := title,
          description := description, category := category, price := price,
          owner := acct, created_at := now, total_purchases := 0,
          is_active := true }
      let mkt' := { mkt with datasets := mkt.datasets ++ [dataset],
                             next_dataset_id := dataset_id + 1 }
      let s0 := (lookupA st.stats acct).getD zeroStats
      let s1 := { s0 with datasets_uploaded := s0.datasets_uploaded + 1 }
      .ok { st with mkts := setA st.mkts dataDexAddr mkt',
                    stats := setA st.stats acct s1 }

/-- The buyer-side stat update of `purchase_dataset`: lazily create a zeroed
`UserStats`, then `datasets_purchased += 1` and `total_spent += price`. -/
def buyerStatsUpd (stats : List (Nat × UserStats)) (b price : Nat) :
    List (Nat × UserStats) :=
  let b0 := (lookupA stats b).getD zeroStats
  setA stats b { b0 with datasets_purchased := b0.datasets_purchased + 1,
                         total_spent := b0.total_spent + price }

/-- The seller-side stat update of `purchase_dataset`: `total_earned += amt`,
silently skipped when the seller has no `UserStats` resource. -/
def sellerStatsUpd (stats : List (Nat × UserStats)) (seller amt : Nat) :
    List (Nat × UserStats) :=
  match lookupA stats seller with
  | none => stats
  | some ss => setA stats seller { ss with total_earned := ss.total_earned + amt }

/-- Embedding of `Marketplace::purchase_dataset`.  The checks run in source order: dataset
found, dataset active, buyer is not the owner, not already purchased, buyer
balance sufficient; then the two coin transfers, the purchase record, the
dataset counter and the user-stat updates. -/
def purchase_dataset (st : MState) (buyer_addr dataset_id now : Nat) :
    Except MErr MState :=
  match lookupA st.mkts dataDexAddr with
  | none => .error .missingData
  | some mkt =>
    match find_dataset_by_id mkt.datasets dataset_id with
    | none => .error .datasetNotFound
    | some idx =>
      match mkt.datasets[idx]? with
      | none => .error .datasetNotFound
      | some dataset =>
        if ¬ dataset.is_active then .error .datasetNotFound
        else if dataset.owner = buyer_addr then .error .unauthorized
        else if has_purchased_dataset mkt.purchases buyer_addr dataset_id then
          .error .datasetAlreadyPurchased
        else
          let price := dataset.price
          let seller_addr := dataset.owner
          if ¬ coinBalance st.bal buyer_addr ≥ price then .error .insufficientBalance
          else
            let platform_fee := (split price mkt.platform_fee_percentage).1
            let seller_amount := (split price mkt.platform_fee_percentage).2
            match (if platform_fee > 0 then
                     coinTransfer st.bal buyer_addr mkt.platform_fee_recipient platform_fee
                   else some st.bal) with
            | none => .error .ecoin
            | some bal1 =>
              match coinTransfer bal1 buyer_addr seller_addr seller_amount with
              | none => .error .ecoin
              | some bal2 =>
                let purchase : Purchase :=
                  { dataset_id := dataset_id, buyer := buyer_addr,
                    seller := seller_addr, price := price, purchased_at := now }
                let dataset' := { dataset with total_purchases := dataset.total_purchases + 1 }
                let mkt' := { mkt with datasets := mkt.datasets.set idx dataset',
                                       purchases := mkt.purchases ++ [purchase] }
                .ok { st with mkts := setA st.mkts dataDexAddr mkt',
                              stats := sellerStatsUpd
                                (buyerStatsUpd st.stats buyer_addr price)
                                seller_addr seller_amount,
                              bal := bal2 }

/-- Embedding of `Marketplace::deactivate_dataset`. -/
def deactivate_dataset (st : MState) (owner_addr dataset_id : Nat) :
    Except MErr MState :=
  match lookupA st.mkts dataDexAddr with
  | none => .error .missingData
  | some mkt =>
    match find_dataset_by_id mkt.datasets dataset_id with
    | none => .error .datasetNotFound
    | some idx =>
      match mkt.datasets[idx]? with
      | none => .error .datasetNotFound
      | some dataset =>
        if ¬ dataset.owner = owner_addr then .error .unauthorized
        else
          let mkt' := { mkt with
            datasets := mkt.datasets.set idx { dataset with is_active := false } }
          .ok { st with mkts := setA st.mkts dataDexAddr mkt' }

/-- Embedding of `Marketplace::update_dataset_price`. -/
def update_dataset_price (st : MState) (owner_addr dataset_id new_price : Nat) :
    Except MErr MState :=
  if ¬ new_price > 0 then .error .invalidPrice
  else match lookupA st.mkts dataDexAddr with
  | none => .error .missingData
  | some mkt =>
    match find_dataset_by_id mkt.datasets dataset_id with
    | none => .error .datasetNotFound
    | some idx =>
      match mkt.datasets[idx]? with
      | none => .error .datasetNotFound
      | some dataset =>
        if ¬ dataset.owner = owner_addr then .error .unauthorized
        else
          let mkt' := { mkt with
            datasets := mkt.datasets.set idx { dataset with price := new_price } }
          .ok { st with mkts := setA st.mkts dataDexAddr mkt' }

/-! ## The RewardSystem module -/

/-- Embedding of `RewardSystem::BonusReward`.  The `vector<u8>` reason is modelled as a
`String`. -/
structure BonusReward where
  recipient : Nat
  amount : Nat
  reason : String
  timestamp : Nat
deriving DecidableEq

/-- Embedding of `RewardSystem::Milestone`. -/
structure Milestone where
  id : Nat
  name : String
  description : String
  requirement : Nat
  reward_amount : Nat
  is_active : Bool
deriving DecidableEq

/-- Embedding of `RewardSystem::RewardPool` (without the three event handles). -/
structure RewardPool where
  balance : Nat
  total_rewards_paid : Nat
  bonus_rewards : List BonusReward
  milestones : List Milestone
  next_milestone_id : Nat
  admin : Nat
deriving DecidableEq

/-- Embedding of `RewardSystem::UserAchievements`. -/
structure UserAchievements where
  milestones_achieved : List Nat
  total_bonus_received : Nat
  last_milestone_check : Nat
deriving DecidableEq

/-- RewardSystem abort codes: the module's six error constants plus
`missingData` for a failed `borrow_global` and `ecoin` for an abort inside
`coin::transfer`. -/
inductive RErr where
  | notInitialized
  | alreadyInitialized
  | unauthorized
  | insufficientBalance
  | invalidAmount
  | rewardPoolEmpty
  | missingData
  | ecoin
deriving DecidableEq

/-- Reward-system side global state: `RewardPool` resources by address,
`UserAchievements` resources by address, and the coin ledger. -/
structure RState where
  pools : List (Nat × RewardPool)
  achievements : List (Nat × UserAchievements)
  bal : List (Nat × Nat)
deriving DecidableEq

/-- Embedding of `RewardSystem::add_milestone`. -/
def add_milestone (st : RState) (admin : Nat) (name description : String)
    (requirement reward_amount : Nat) : Except RErr RState :=
  match lookupA st.pools dataDexAddr with
  | none => .error .missingData
  | some pool =>
      if ¬ pool.admin = admin then .error .unauthorized
      else if ¬ reward_amount > 0 then .error .invalidAmount
      else
        let milestone : Milestone :=
          { id := pool.next_milestone_id, name := name, description := description,
            requirement := requirement, reward_amount := reward_amount,
            is_active := true }
        let pool' := { pool with milestones := pool.milestones ++ [milestone],
                                 next_milestone_id := pool.next_milestone_id + 1 }
        .ok { st with pools := setA st.pools dataDexAddr pool' }

/-- Embedding of `RewardSystem::create_default_milestones`: the four `add_milestone` calls
made at the end of `initialize_reward_system`, with the literal arguments of
the source. -/
def create_default_milestones (st : RState) (admin : Nat) : Except RErr RState :=
  match add_milestone st admin "First Upload"
      "Upload your first dataset to the marketplace" 1 1000000 with
  | .error e => .error e
  | .ok st1 =>
    match add_milestone st1 admin "Early Adopter"
        "Upload 5 datasets to the marketplace" 5 5000000 with
    | .error e => .error e
    | .ok st2 =>
      match add_milestone st2 admin "Power Seller"
          "Upload 10 datasets to the marketplace" 10 10000000 with
      | .error e => .error e
      | .ok st3 =>
        add_milestone st3 admin "Data Champion"
          "Upload 25 datasets to the marketplace" 25 25000000

/-- The fresh pool built by `initialize_reward_system`. -/
def initPool (admin initial_balance : Nat) : RewardPool :=
  { balance := initial_balance, total_rewards_paid := 0,
    bonus_rewards := [], milestones := [], next_milestone_id := 1,
    admin := admin }

/-- Embedding of `RewardSystem::initialize_reward_system`: existence check, optional
self-transfer of the initial balance, pool creation at the admin's address,
then the default milestones. -/
def init_reward_system (st : RState) (admin initial_balance : Nat) :
    Except RErr RState :=
  if (lookupA st.pools admin).isSome then .error .alreadyInitialized
  else
    match (if initial_balance > 0 then
             coinTransfer st.bal admin admin initial_balance
           else some st.bal) with
    | none => .error .ecoin
    | some bal' =>
        create_default_milestones
          { st with pools := setA st.pools admin (initPool admin initial_balance),
                    bal := bal' } admin

/-- Embedding of `RewardSystem::pay_bonus_reward`. -/
def pay_bonus_reward (st : RState) (admin recipient amount : Nat)
    (reason : String) (now : Nat) : Except RErr RState :=
  match lookupA st.pools dataDexAddr with
  | none => .error .missingData
  | some pool =>
      if ¬ pool.admin = admin then .error .unauthorized
      else if ¬ amount > 0 then .error .invalidAmount
      else if ¬ pool.balance ≥ amount then .error .insufficientBalance
      else
        match coinTransfer st.bal admin recipient amount with
        | none => .error .ecoin
        | some bal' =>
            let bonus : BonusReward :=
              { recipient := recipient, amount := amount, reason := reason,
                timestamp := now }
            let pool' := { pool with
              balance := pool.balance - amount,
              total_rewards_paid := pool.total_rewards_paid + amount,
              bonus_rewards := pool.bonus_rewards ++ [bonus] }
            .ok { st with pools := setA st.pools dataDexAddr pool', bal := bal' }

/-- The milestone-lookup loop of `transfer_milestone_reward`: first milestone
with the given id. -/
def findMilestone : List Milestone → Nat → Option Milestone
  | [], _ => none
  | m :: rest, mid => if m.id = mid then some m else findMilestone rest mid

/-- Embedding of `RewardSystem::transfer_milestone_reward`.  A missing milestone aborts
with `E_INVALID_AMOUNT`; nothing per-user is recorded. -/
def transfer_milestone_reward (st : RState) (admin recipient milestone_id : Nat) :
    Except RErr RState :=
  match lookupA st.pools dataDexAddr with
  | none => .error .missingData
  | some pool =>
      if ¬ pool.admin = admin then .error .unauthorized
      else
        match findMilestone pool.milestones milestone_id with
        | none => .error .invalidAmount
        | some milestone =>
            if ¬ pool.balance ≥ milestone.reward_amount then .error .insufficientBalance
            else
              match coinTransfer st.bal admin recipient milestone.reward_amount with
              | none => .error .ecoin
              | some bal' =>
                  let pool' := { pool with
                    balance := pool.balance - milestone.reward_amount,
                    total_rewards_paid :=
                      pool.total_rewards_paid + milestone.reward_amount }
                  .ok { st with pools := setA st.pools dataDexAddr pool', bal := bal' }

/-- Embedding of `RewardSystem::initialize_user_achievements`. -/
def init_user_achievements (st : RState) (user now : Nat) : Except RErr RState :=
  if (lookupA st.achievements user).isSome then .error .alreadyInitialized
  else
    let ach : UserAchievements :=
      { milestones_achieved := [], total_bonus_received := 0,
        last_milestone_check := now }
    .ok { st with achievements := setA st.achievements user ach }

/-- The mutable state threaded through the milestone loop of
`check_milestones`: the pool's balance and paid total, and the user's
achieved-id list. -/
structure ChkSt where
  balance : Nat
  total : Nat
  achieved : List Nat
deriving DecidableEq

/-- One iteration of the `check_milestones` loop: the milestone is active, not
yet achieved by the user, the uploaded count meets the requirement and the
pool can cover the reward — then debit the pool and append the id. -/
def chkStep (uploaded : Nat) (s : ChkSt) (m : Milestone) : ChkSt :=
  if m.is_active ∧ ¬ s.achieved.contains m.id ∧
     uploaded ≥ m.requirement ∧ s.balance ≥ m.reward_amount then
    { balance := s.balance - m.reward_amount,
      total := s.total + m.reward_amount,
      achieved := s.achieved ++ [m.id] }
  else s

/-- The whole milestone loop of `check_milestones`. -/
def chkRun (uploaded : Nat) (s : ChkSt) (ms : List Milestone) : ChkSt :=
  ms.foldl (chkStep uploaded) s

/-- Embedding of `RewardSystem::check_milestones`: lazily creates the user's
`UserAchievements`, runs the milestone loop, stamps
`last_milestone_check`. -/
def check_milestones (st : RState) (user datasets_uploaded now : Nat) :
    Except RErr RState :=
  match lookupA st.pools dataDexAddr with
  | none => .error .missingData
  | some pool =>
      let ach := (lookupA st.achievements user).getD
        { milestones_achieved := [], total_bonus_received := 0,
          last_milestone_check := now }
      let s0 : ChkSt :=
        { balance := pool.balance, total := pool.total_rewards_paid,
          achieved := ach.milestones_achieved }
      let s1 := chkRun datasets_uploaded s0 pool.milestones
      let pool' := { pool with balance := s1.balance, total_rewards_paid := s1.total }
      let ach' := { ach with milestones_achieved := s1.achieved,
                             last_milestone_check := now }
      .ok { st with pools := setA st.pools dataDexAddr pool',
                    achievements := setA st.achievements user ach' }

/-- Embedding of `RewardSystem::replenish_pool`. -/
def replenish_pool (st : RState) (admin amount : Nat) : Except RErr RState :=
  match lookupA st.pools dataDexAddr with
  | none => .error .missingData
  | some pool =>
      if ¬ pool.admin = admin then .error .unauthorized
      else if ¬ amount > 0 then .error .invalidAmount
      else
        match coinTransfer st.bal admin admin amount with
        | none => .error .ecoin
        | some bal' =>
            let pool' := { pool with balance := pool.balance + amount }
            .ok { st with pools := setA st.pools dataDexAddr pool', bal := bal' }

/-- The loop of `deactivate_milestone`: deactivates the first milestone with
the given id (the source breaks after the first hit) and leaves the list
unchanged when the id is absent. -/
def deactivateFirst : List Milestone → Nat → List Milestone
  | [], _ => []
  | m :: rest, mid =>
      if m.id = mid then { m with is_active := false } :: rest
      else m :: deactivateFirst rest mid

/-- Embedding of `RewardSystem::deactivate_milestone`. -/
def deactivate_milestone (st : RState) (admin milestone_id : Nat) :
    Except RErr RState :=
  match lookupA st.pools dataDexAddr with
  | none => .error .missingData
  | some pool =>
      if ¬ pool.admin = admin then .error .unauthorized
      else
        let pool' := { pool with
          milestones := deactivateFirst pool.milestones milestone_id }
        .ok { st with pools := setA st.pools dataDexAddr pool' }

/-! ## Operations and reachable states -/

/-- The entry functions of the Marketplace module as transactions, plus
`fund`, which models an external deposit into the coin ledger (the coin
module is outside this repository). -/
inductive MOp where
  | initOp (admin fee_percentage fee_recipient : Nat)
  | uploadOp (acct : Nat) (ipfs_hash title description category : String)
      (price now : Nat)
  | purchaseOp (buyer dataset_id now : Nat)
  | deactivateOp (owner_addr dataset_id : Nat)
  | updatePriceOp (owner_addr dataset_id new_price : Nat)
  | fundOp (a amt : Nat)

/-- Run one marketplace transaction. -/
def execOp (st : MState) : MOp → Except MErr MState
  | .initOp admin fee recip => init_marketplace st admin fee recip
  | .uploadOp acct h t d c price now => upload_dataset st acct h t d c price now
  | .purchaseOp buyer did now => purchase_dataset st buyer did now
  | .deactivateOp o did => deactivate_dataset st o did
  | .updatePriceOp o did p => update_dataset_price st o did p
  | .fundOp a amt => .ok { st with bal := coinDeposit st.bal a amt }

/-- An aborting transaction rolls back: the state is unchanged. -/
def applyOp (st : MState) (op : MOp) : MState :=
  match execOp st op with
  | .ok st' => st'
  | .error _ => st

/-- Marketplace states reachable from an empty ledger (no marketplace, no
stats) with arbitrary initial coin balances. -/
def reachableM (st : MState) : Prop :=
  ∃ bal : List (Nat × Nat), ∃ ops : List MOp,
    st = ops.foldl applyOp { mkts := [], stats := [], bal := bal }

/-- The entry functions of the RewardSystem module as transactions, plus
`fundROp` for external coin deposits. -/
inductive ROp where
  | initSysOp (admin initial_balance : Nat)
  | addMilestoneOp (admin : Nat) (name description : String)
      (requirement reward_amount : Nat)
  | payBonusOp (admin recipient amount : Nat) (reason : String) (now : Nat)
  | transferMilestoneOp (admin recipient milestone_id : Nat)
  | initAchOp (user now : Nat)
  | checkMilestonesOp (user datasets_uploaded now : Nat)
  | replenishOp (admin amount : Nat)
  | deactivateMilestoneOp (admin milestone_id : Nat)
  | fundROp (a amt : Nat)

/-- Run one reward-system transaction. -/
def execROp (st : RState) : ROp → Except RErr RState
  | .initSysOp admin b => init_reward_system st admin b
  | .addMilestoneOp admin n d req amt => add_milestone st admin n d req amt
  | .payBonusOp admin r amt reason now => pay_bonus_reward st admin r amt reason now
  | .transferMilestoneOp admin r mid => transfer_milestone_reward st admin r mid
  | .initAchOp user now => init_user_achievements st user now
  | .checkMilestonesOp user n now => check_milestones st user n now
  | .replenishOp admin amt => replenish_pool st admin amt
  | .deactivateMilestoneOp admin mid => deactivate_milestone st admin mid
  | .fundROp a amt => .ok { st with bal := coinDeposit st.bal a amt }

/-- An aborting transaction rolls back: the state is unchanged. -/
def applyROp (st : RState) (op : ROp) : RState :=
  match execROp st op with
  | .ok st' => st'
  | .error _ => st

/-- Reward-system states reachable from an empty ledger with arbitrary
initial coin balances. -/
def reachableR (st : RState) : Prop :=
  ∃ bal : List (Nat × Nat), ∃ ops : List ROp,
    st = ops.foldl applyROp { pools := [], achievements := [], bal := bal }

/-- The marketplace after `purchase_dataset` records the purchase of the
dataset at `idx` by `b`. -/
def purchaseMkt (mkt : DataMarketplace) (idx : Nat) (d : Dataset)
    (b did now : Nat) : DataMarketplace :=
  { mkt with
    datasets := mkt.datasets.set idx
      { d with total_purchases := d.total_purchases + 1 },
    purchases := mkt.purchases ++
      [{ dataset_id := did, buyer := b, seller := d.owner,
         price := d.price, purchased_at := now }] }

/-- The marketplace state produced by a successful `purchase_dataset`, given
the borrowed marketplace, the dataset's index and value, and the final coin
ledger. -/
def purchasePost (st : MState) (b did now : Nat) (mkt : DataMarketplace)
    (idx : Nat) (d : Dataset) (bal2 : List (Nat × Nat)) : MState :=
  { st with
    mkts := setA st.mkts dataDexAddr (purchaseMkt mkt idx d b did now),
    stats := sellerStatsUpd (buyerStatsUpd st.stats b d.price) d.owner
      (split d.price mkt.platform_fee_percentage).2,
    bal := bal2 }

/-! ## Post-states of the marketplace entry functions -/

/-- The dataset record built by `upload_dataset`. -/
def newDataset (acct : Nat) (ipfs_hash title description category : String)
    (price now id : Nat) : Dataset :=
  { id := id, ipfs_hash := ipfs_hash, title := title,
    description := description, category := category, price := price,
    owner := acct, created_at := now, total_purchases := 0,
    is_active := true }

/-- The marketplace after `upload_dataset` appends a dataset. -/
def uploadMkt (mkt : DataMarketplace) (d : Dataset) : DataMarketplace :=
  { mkt with datasets := mkt.datasets ++ [d],
             next_dataset_id := mkt.next_dataset_id + 1 }

/-- The per-account stat bump of `upload_dataset`. -/
def uploadStatsUpd (stats : List (Nat × UserStats)) (acct : Nat) :
    List (Nat × UserStats) :=
  let s0 := (lookupA stats acct).getD zeroStats
  setA stats acct { s0 with datasets_uploaded := s0.datasets_uploaded + 1 }

/-- The state after a successful `upload_dataset`. -/
def uploadPost (st : MState) (mkt : DataMarketplace) (acct : Nat)
    (ipfs_hash title description category : String) (price now : Nat) : MState :=
  { st with
    mkts := setA st.mkts dataDexAddr
      (uploadMkt mkt (newDataset acct ipfs_hash title description category
        price now mkt.next_dataset_id)),
    stats := uploadStatsUpd st.stats acct }

/-- The empty marketplace built by `initialize`. -/
def emptyMkt (fee_percentage fee_recipient : Nat) : DataMarketplace :=
  { datasets := [], purchases := [], next_dataset_id := 1,
    platform_fee_percentage := fee_percentage,
    platform_fee_recipient := fee_recipient }

/-- The state after replacing the dataset at `idx` with `dnew`
(`deactivate_dataset` and `update_dataset_price`). -/
def setDatasetPost (st : MState) (mkt : DataMarketplace) (idx : Nat)
    (dnew : Dataset) : MState :=
  let mkt' := { mkt with datasets := mkt.datasets.set idx dnew }
  { st with mkts := setA st.mkts dataDexAddr mkt' }

/-- Well-formedness of a marketplace: dataset ids below the id counter and
strictly increasing, purchases pairwise distinct on (buyer, dataset) and each
purchase linked to an existing dataset owned by its seller (≠ buyer). -/
def mwf (m : DataMarketplace) : Prop :=
  (∀ d ∈ m.datasets, d.id < m.next_dataset_id) ∧
  List.Chain' (fun a b => a < b) (m.datasets.map Dataset.id) ∧
  List.Pairwise (fun p q => p.buyer ≠ q.buyer ∨ p.dataset_id ≠ q.dataset_id)
    m.purchases ∧
  (∀ p ∈ m.purchases, p.buyer ≠ p.seller ∧
    ∃ d ∈ m.datasets, d.id = p.dataset_id ∧ d.owner = p.seller)

/-- Every marketplace resource in the state is well-formed. -/
def stWF (st : MState) : Prop :=
  ∀ a m, lookupA st.mkts a = some m → mwf m

/-- The achieved-milestone list of a user, empty when no record exists. -/
def achievedOf (st : RState) (user : Nat) : List Nat :=
  ((lookupA st.achievements user).getD
    { milestones_achieved := [], total_bonus_received := 0,
      last_milestone_check := 0 }).milestones_achieved

/-! ## Post-states of the reward-system entry functions -/

/-- The pool after `add_milestone` appends a fresh milestone. -/
def addMsPool (pool : RewardPool) (n d : String) (req amt : Nat) : RewardPool :=
  { pool with
    milestones := pool.milestones ++
      [{ id := pool.next_milestone_id, name := n, description := d,
         requirement := req, reward_amount := amt, is_active := true }],
    next_milestone_id := pool.next_milestone_id + 1 }

/-- The state after a successful `add_milestone` on `pool`. -/
def addMilestonePost (st : RState) (pool : RewardPool) (n d : String)
    (req amt : Nat) : RState :=
  { st with pools := setA st.pools dataDexAddr (addMsPool pool n d req amt) }

/-- The pool after `pay_bonus_reward` debits it and logs the bonus. -/
def payBonusPool (pool : RewardPool) (r amt : Nat) (reason : String)
    (now : Nat) : RewardPool :=
  { pool with
    balance := pool.balance - amt,
    total_rewards_paid := pool.total_rewards_paid + amt,
    bonus_rewards := pool.bonus_rewards ++
      [{ recipient := r, amount := amt, reason := reason, timestamp := now }] }

/-- The state after a successful `pay_bonus_reward` on `pool`, with `bal'`
the coin ledger after the transfer. -/
def payBonusPost (st : RState) (pool : RewardPool) (r amt : Nat)
    (reason : String) (now : Nat) (bal' : List (Nat × Nat)) : RState :=
  { st with pools := setA st.pools dataDexAddr (payBonusPool pool r amt reason now),
            bal := bal' }

/-- The pool after `transfer_milestone_reward` debits milestone `m`. -/
def transferMsPool (pool : RewardPool) (m : Milestone) : RewardPool :=
  { pool with
    balance := pool.balance - m.reward_amount,
    total_rewards_paid := pool.total_rewards_paid + m.reward_amount }

/-- The state after a successful `transfer_milestone_reward` paying milestone
`m` out of `pool`. -/
def transferMsPost (st : RState) (pool : RewardPool) (m : Milestone)
    (bal' : List (Nat × Nat)) : RState :=
  { st with pools := setA st.pools dataDexAddr (transferMsPool pool m),
            bal := bal' }

/-- The pool after `replenish_pool` credits it. -/
def replenishUpd (pool : RewardPool) (amt : Nat) : RewardPool :=
  { pool with balance := pool.balance + amt }

/-- The state after a successful `replenish_pool`. -/
def replenishPost (st : RState) (pool : RewardPool) (amt : Nat)
    (bal' : List (Nat × Nat)) : RState :=
  { st with pools := setA st.pools dataDexAddr (replenishUpd pool amt),
            bal := bal' }

/-- The pool after `deactivate_milestone`. -/
def deactivateMsUpd (pool : RewardPool) (mid : Nat) : RewardPool :=
  { pool with milestones := deactivateFirst pool.milestones mid }

/-- The state after a successful `deactivate_milestone`. -/
def deactivateMsPost (st : RState) (pool : RewardPool) (mid : Nat) : RState :=
  { st with pools := setA st.pools dataDexAddr (deactivateMsUpd pool mid) }

/-- The state after a successful `initialize_user_achievements`. -/
def initAchPost (st : RState) (user now : Nat) : RState :=
  let ach : UserAchievements :=
    { milestones_achieved := [], total_bonus_received := 0,
      last_milestone_check := now }
  { st with achievements := setA st.achievements user ach }

/-- The state after `check_milestones` on `pool`. -/
def checkPost (st : RState) (user n now : Nat) (pool : RewardPool) : RState :=
  let ach := (lookupA st.achievements user).getD
      { milestones_achieved := [], total_bonus_received := 0,
        last_milestone_check := now }
  let s1 := chkRun n
      { balance := pool.balance, total := pool.total_rewards_paid,
        achieved := ach.milestones_achieved } pool.milestones
  { st with
    pools := setA st.pools dataDexAddr
      { pool with balance := s1.balance, total_rewards_paid := s1.total },
    achievements := setA st.achievements user
      { ach with milestones_achieved := s1.achieved,
                 last_milestone_check := now } }

/-! ## Concrete states used by witnesses and counterexamples -/

/-- A concrete active dataset: id 1, owner address 1, price 100. -/
def wDataset : Dataset :=
  { id := 1, ipfs_hash := "h", title := "t", description := "dsc",
    category := "c", price := 100, owner := 1, created_at := 0,
    total_purchases := 0, is_active := true }

/-- A concrete marketplace holding `wDataset`, fee 5%, fee recipient 3. -/
def wMkt : DataMarketplace :=
  { datasets := [wDataset], purchases := [], next_dataset_id := 2,
    platform_fee_percentage := 5, platform_fee_recipient := 3 }

/-- A concrete state: `wMkt` at `@DataDex`, the seller (address 1) already has
a stats record, the buyer (address 2) holds 1000 coins. -/
def wSt : MState :=
  { mkts := [(dataDexAddr, wMkt)],
    stats := [(1, { datasets_uploaded := 1, datasets_purchased := 0,
                    total_earned := 0, total_spent := 0 })],
    bal := [(2, 1000)] }

/-- The dataset `wDataset` deactivated. -/
def wDatasetInactive : Dataset := { wDataset with is_active := false }

/-- A concrete state whose only dataset is inactive and owned by address 1. -/
def wStInactive : MState :=
  { mkts := [(dataDexAddr, { wMkt with datasets := [wDatasetInactive] })],
    stats := [], bal := [(1, 1000)] }

/-- Transaction sequence: initialize, fund the buyer, upload a dataset as
address 1, have address 2 purchase it, then deactivate it. -/
def c3ops : List MOp :=
  [ MOp.initOp dataDexAddr 5 3,
    MOp.fundOp 2 1000,
    MOp.uploadOp 1 "h" "t" "dsc" "c" 100 10,
    MOp.purchaseOp 2 1 11,
    MOp.deactivateOp 1 1 ]

/-- The reachable state after `c3ops`. -/
def c3st : MState := c3ops.foldl applyOp { mkts := [], stats := [], bal := [] }

/-- The sequence `c3ops` without the final deactivation: the purchased dataset stays
active. -/
def c3bops : List MOp :=
  [ MOp.initOp dataDexAddr 5 3,
    MOp.fundOp 2 1000,
    MOp.uploadOp 1 "h" "t" "dsc" "c" 100 10,
    MOp.purchaseOp 2 1 11 ]

/-- The reachable state after `c3bops`. -/
def c3bst : MState := c3bops.foldl applyOp { mkts := [], stats := [], bal := [] }

/-- The marketplace resource of `c3bst`. -/
def c3bmkt : DataMarketplace :=
  (lookupA c3bst.mkts dataDexAddr).getD
    { datasets := [], purchases := [], next_dataset_id := 1,
      platform_fee_percentage := 0, platform_fee_recipient := 0 }

/-- The purchase record created by `c3bops`. -/
def c3bp : Purchase :=
  { dataset_id := 1, buyer := 2, seller := 1, price := 100, purchased_at := 11 }

/-- A concrete milestone: id 1, requirement 1, reward 1_000_000. -/
def c6ms : Milestone :=
  { id := 1, name := "First Upload", description := "dsc",
    requirement := 1, reward_amount := 1000000, is_active := true }

/-- A concrete reward pool with the single milestone `c6ms` and balance
10_000_000, administered by address 0. -/
def c6pool : RewardPool :=
  { balance := 10000000, total_rewards_paid := 0, bonus_rewards := [],
    milestones := [c6ms], next_milestone_id := 2, admin := 0 }

/-- A concrete reward-system state holding `c6pool` at `@DataDex`; the admin
(address 0) holds plenty of coins. -/
def c6st : RState :=
  { pools := [(dataDexAddr, c6pool)], achievements := [], bal := [(0, 100000000)] }

/-- The pool `c6pool` with an empty balance. -/
def c6poolPoor : RewardPool := { c6pool with balance := 0 }

/-- A reward-system state whose pool cannot cover any payout. -/
def c5stPoor : RState :=
  { pools := [(dataDexAddr, c6poolPoor)], achievements := [],
    bal := [(0, 100000000)] }

/-- A fresh reward-system state with no pool and a funded deployer. -/
def c9st : RState :=
  { pools := [], achievements := [], bal := [(dataDexAddr, 1000)] }

/-- Reward-system transactions: fund the deployer, initialize with
100_000_000, then evaluate user 7 with six uploads. -/
def c6rops : List ROp :=
  [ ROp.fundROp dataDexAddr 1000000000,
    ROp.initSysOp dataDexAddr 100000000,
    ROp.checkMilestonesOp 7 6 20 ]

/-- The reachable reward-system state after `c6rops`. -/
def c6rst : RState :=
  c6rops.foldl applyROp { pools := [], achievements := [], bal := [] }

/-- The achievement record of user 7 in `c6rst` (the fallback default is
deliberately nonzero so that the lookup is what matters). -/
def c6rach : UserAchievements :=
  (lookupA c6rst.achievements 7).getD
    { milestones_achieved := [], total_bonus_received := 99,
      last_milestone_check := 0 }

/-- The state after the admin pays milestone 1's reward to user 7 once. -/
def c6st1 : RState := applyROp c6st (.transferMilestoneOp 0 7 1)

/-- The state after the admin pays milestone 1's reward to user 7 a second
time. -/
def c6st2 : RState := applyROp c6st1 (.transferMilestoneOp 0 7 1)

/-! ## Association list and coin ledger lemmas -/

theorem lookupA_setA {α : Type} (l : List (Nat × α)) (k a : Nat) (v : α) :
    lookupA (setA l k v) a = if k = a then some v else lookupA l a := by
  induction l with
  | nil => simp [setA, lookupA]
  | cons hd tl ih =>
      obtain ⟨k', v'⟩ := hd
      by_cases hk : k' = k
      · subst hk
        by_cases ha : k' = a <;> simp [setA, lookupA, ha]
      · by_cases ha : k' = a
        · have hka : ¬ k = a := by
            rw [← ha]
            exact fun h => hk h.symm
          have hak : ¬ a = k := fun h => hka h.symm
          simp [setA, lookupA, hk, ha, hka, hak]
        · simp [setA, lookupA, hk, ha, ih]

theorem coinBalance_setA (bal : List (Nat × Nat)) (a x v : Nat) :
    coinBalance (setA bal a v) x = if a = x then v else coinBalance bal x := by
  simp only [coinBalance, lookupA_setA]
  split <;> rfl

theorem coinBalance_deposit (bal : List (Nat × Nat)) (a amt x : Nat) :
    coinBalance (coinDeposit bal a amt) x =
      if a = x then coinBalance bal x + amt else coinBalance bal x := by
  simp only [coinDeposit, coinBalance_setA]
  by_cases h : a = x
  · subst h
    simp
  · simp [h]

theorem coinTransfer_some {bal : List (Nat × Nat)} {src amt : Nat} (dst : Nat)
    (h : amt ≤ coinBalance bal src) :
    coinTransfer bal src dst amt =
      some (coinDeposit (setA bal src (coinBalance bal src - amt)) dst amt) := by
  simp [coinTransfer, coinWithdraw, h]

theorem coinTransfer_balance_src {bal b : List (Nat × Nat)} {src dst amt : Nat}
    (h : coinTransfer bal src dst amt = some b) :
    amt ≤ coinBalance bal src ∧
    coinBalance b src =
      (if dst = src then coinBalance bal src else coinBalance bal src - amt) := by
  unfold coinTransfer coinWithdraw at h
  by_cases hle : amt ≤ coinBalance bal src
  · refine ⟨hle, ?_⟩
    simp only [if_pos hle, Option.map_some] at h
    cases h
    rw [coinBalance_deposit]
    simp only [coinBalance_setA, if_pos rfl]
    by_cases hd : dst = src
    · simp [hd, Nat.sub_add_cancel hle]
    · simp [hd]
  · simp [if_neg hle] at h

/-! ## Marketplace helper lemmas -/

theorem has_purchased_iff (l : List Purchase) (b did : Nat) :
    has_purchased_dataset l b did = true ↔
      ∃ p ∈ l, p.buyer = b ∧ p.dataset_id = did := by
  induction l with
  | nil => simp [has_purchased_dataset]
  | cons p rest ih =>
      by_cases hp : p.buyer = b ∧ p.dataset_id = did
      · simp [has_purchased_dataset, hp]
      · simp only [has_purchased_dataset, if_neg hp, ih]
        constructor
        · rintro ⟨q, hq, h1, h2⟩
          exact ⟨q, List.mem_cons_of_mem _ hq, h1, h2⟩
        · rintro ⟨q, hq, h1, h2⟩
          rcases List.mem_cons.mp hq with h | h
          · exact absurd ⟨h ▸ h1, h ▸ h2⟩ hp
          · exact ⟨q, h, h1, h2⟩

theorem find_dataset_some {l : List Dataset} {did idx : Nat}
    (h : find_dataset_by_id l did = some idx) :
    ∃ d, l[idx]? = some d ∧ d.id = did := by
  induction l generalizing idx with
  | nil => simp [find_dataset_by_id] at h
  | cons d rest ih =>
      by_cases hd : d.id = did
      · simp only [find_dataset_by_id, if_pos hd, Option.some_inj] at h
        exact ⟨d, by rw [← h]; simp, hd⟩
      · simp only [find_dataset_by_id, if_neg hd, Option.map_eq_some'] at h
        obtain ⟨j, hj, rfl⟩ := h
        obtain ⟨e, he, hid⟩ := ih hj
        exact ⟨e, by simpa using he, hid⟩

theorem find_dataset_none {l : List Dataset} {did : Nat}
    (h : find_dataset_by_id l did = none) : ∀ d ∈ l, d.id ≠ did := by
  induction l with
  | nil => simp
  | cons d rest ih =>
      by_cases hd : d.id = did
      · simp [find_dataset_by_id, hd] at h
      · simp only [find_dataset_by_id, if_neg hd, Option.map_eq_none'] at h
        intro e he
        rcases List.mem_cons.mp he with rfl | hmem
        · exact hd
        · exact ih h e hmem

/-! ## C1: payment split -/

/-- C1.  For every price in `[1, 10^15]` and fee percentage in `[0, 20]`, the
purchase payment split computes `fee = floor(price * feePercent / 100)` and
`sellerAmount = price - fee`, the two always add back to exactly `price`, the
fee rounds down (the remainder goes to the seller), and the intermediate
product stays below `2^64`, so the `u64` arithmetic cannot overflow. -/
theorem payment_split_exact (price fee_percent : Nat)
    (_hp1 : 1 ≤ price) (hp2 : price ≤ 10 ^ 15) (hf : fee_percent ≤ 20) :
    (split price fee_percent).1 = price * fee_percent / 100 ∧
    (split price fee_percent).2 = price - (split price fee_percent).1 ∧
    (split price fee_percent).1 + (split price fee_percent).2 = price ∧
    (split price fee_percent).1 * 100 ≤ price * fee_percent ∧
    price * fee_percent < 2 ^ 64 := by
  have hmul : price * fee_percent ≤ price * 100 :=
    Nat.mul_le_mul_left price (le_trans hf (by norm_num))
  have hfee : price * fee_percent / 100 ≤ price := by
    calc price * fee_percent / 100 ≤ price * 100 / 100 := Nat.div_le_div_right hmul
      _ = price := Nat.mul_div_cancel price (by norm_num)
  refine ⟨rfl, rfl, Nat.add_sub_cancel' hfee, Nat.div_mul_le_self _ _, ?_⟩
  calc price * fee_percent ≤ 10 ^ 15 * 20 := Nat.mul_le_mul hp2 hf
    _ < 2 ^ 64 := by norm_num

/-- Witness for C1 at the spec's worked example: price 50_000_000, fee 5%. -/
theorem payment_split_exact_witness :
    (split 50000000 5).1 = 2500000 ∧ (split 50000000 5).2 = 47500000 ∧
    (split 50000000 5).1 + (split 50000000 5).2 = 50000000 := by
  refine ⟨by decide, by decide, ?_⟩
  exact (payment_split_exact 50000000 5 (by norm_num) (by norm_num)
    (by norm_num)).2.2.1

/-- Inversion principle for a successful `purchase_dataset`: it succeeds only
when every check of the source passed, and the post-state is exactly the one
built by the source. -/
theorem purchase_ok_spec {st st' : MState} {b did now : Nat}
    (h : purchase_dataset st b did now = .ok st') :
    ∃ mkt idx d bal1 bal2,
      lookupA st.mkts dataDexAddr = some mkt ∧
      find_dataset_by_id mkt.datasets did = some idx ∧
      mkt.datasets[idx]? = some d ∧
      d.is_active = true ∧
      ¬ d.owner = b ∧
      has_purchased_dataset mkt.purchases b did = false ∧
      d.price ≤ coinBalance st.bal b ∧
      (if (split d.price mkt.platform_fee_percentage).1 > 0 then
         coinTransfer st.bal b mkt.platform_fee_recipient
           (split d.price mkt.platform_fee_percentage).1
       else some st.bal) = some bal1 ∧
      coinTransfer bal1 b d.owner
        (split d.price mkt.platform_fee_percentage).2 = some bal2 ∧
      st' = purchasePost st b did now mkt idx d bal2 := by
  unfold purchase_dataset at h
  dsimp only at h
  split at h
  · exact absurd h (by simp)
  next mkt hm =>
    split at h
    · exact absurd h (by simp)
    next idx hf =>
      split at h
      · exact absurd h (by simp)
      next d hg =>
        split at h
        · exact absurd h (by simp)
        next hact =>
          split at h
          · exact absurd h (by simp)
          next hown =>
            split at h
            · exact absurd h (by simp)
            next hnp =>
              split at h
              · exact absurd h (by simp)
              next hbal =>
                split at h
                · exact absurd h (by simp)
                next bal1 hb1 =>
                  split at h
                  · exact absurd h (by simp)
                  next bal2 hb2 =>
                    refine ⟨mkt, idx, d, bal1, bal2, hm, hf, hg, ?_, hown,
                      ?_, ?_, hb1, hb2, ?_⟩
                    · exact Bool.of_not_eq_false (fun hh => hact (by simp [hh]))
                    · exact Bool.eq_false_iff.mpr
                        (fun hh => hnp hh) |>.symm ▸ rfl
                    · exact Nat.le_of_not_lt (fun hh => hbal (Nat.not_le.mpr hh))
                    · injection h with h
                      exact h.symm

theorem lookupA_buyerStatsUpd_self (stats : List (Nat × UserStats)) (b price : Nat) :
    lookupA (buyerStatsUpd stats b price) b = some
      { (lookupA stats b).getD zeroStats with
          datasets_purchased := ((lookupA stats b).getD zeroStats).datasets_purchased + 1,
          total_spent := ((lookupA stats b).getD zeroStats).total_spent + price } := by
  simp [buyerStatsUpd, lookupA_setA]

theorem lookupA_buyerStatsUpd_ne (stats : List (Nat × UserStats)) {b x : Nat}
    (price : Nat) (h : ¬ b = x) :
    lookupA (buyerStatsUpd stats b price) x = lookupA stats x := by
  simp [buyerStatsUpd, lookupA_setA, h]

theorem lookupA_sellerStatsUpd_some (stats : List (Nat × UserStats))
    {seller : Nat} (amt : Nat) {ss : UserStats}
    (h : lookupA stats seller = some ss) :
    lookupA (sellerStatsUpd stats seller amt) seller =
      some { ss with total_earned := ss.total_earned + amt } := by
  simp [sellerStatsUpd, h, lookupA_setA]

theorem lookupA_sellerStatsUpd_none (stats : List (Nat × UserStats))
    {seller : Nat} (amt : Nat) (h : lookupA stats seller = none) :
    lookupA (sellerStatsUpd stats seller amt) seller = none := by
  simp [sellerStatsUpd, h]

theorem lookupA_sellerStatsUpd_ne (stats : List (Nat × UserStats))
    {seller x : Nat} (amt : Nat) (h : ¬ seller = x) :
    lookupA (sellerStatsUpd stats seller amt) x = lookupA stats x := by
  unfold sellerStatsUpd
  match hs : lookupA stats seller with
  | none => rfl
  | some ss => simp [lookupA_setA, h]

/-! ## C2: effects of a successful purchase -/

/-- C2.  In a state where the dataset exists and is active, the buyer is not
the owner, no purchase with this buyer and dataset exists, the buyer can
afford the price and the platform fee percentage is within the initialized
bound, `purchase_dataset` succeeds, appends exactly one `Purchase` record,
increments the dataset's `total_purchases` by one, bumps the buyer's stats by
one purchase and the full price, and credits `sellerAmount` to the seller's
`total_earned` if and only if the seller already has a `UserStats` record. -/
theorem purchase_success_effects
    (st : MState) (b did now : Nat) (mkt : DataMarketplace) (idx : Nat) (d : Dataset)
    (hm : lookupA st.mkts dataDexAddr = some mkt)
    (hfp : mkt.platform_fee_percentage ≤ 20)
    (hf : find_dataset_by_id mkt.datasets did = some idx)
    (hg : mkt.datasets[idx]? = some d)
    (hact : d.is_active = true)
    (hown : ¬ d.owner = b)
    (hnp : has_purchased_dataset mkt.purchases b did = false)
    (hbal : d.price ≤ coinBalance st.bal b) :
    ∃ st' mkt', purchase_dataset st b did now = .ok st' ∧
      lookupA st'.mkts dataDexAddr = some mkt' ∧
      mkt'.purchases = mkt.purchases ++
        [{ dataset_id := did, buyer := b, seller := d.owner,
           price := d.price, purchased_at := now }] ∧
      mkt'.datasets = mkt.datasets.set idx
        { d with total_purchases := d.total_purchases + 1 } ∧
      lookupA st'.stats b = some
        { (lookupA st.stats b).getD zeroStats with
            datasets_purchased :=
              ((lookupA st.stats b).getD zeroStats).datasets_purchased + 1,
            total_spent := ((lookupA st.stats b).getD zeroStats).total_spent + d.price } ∧
      (∀ ss, lookupA st.stats d.owner = some ss →
        lookupA st'.stats d.owner = some
          { ss with total_earned := ss.total_earned +
              (split d.price mkt.platform_fee_percentage).2 }) ∧
      (lookupA st.stats d.owner = none → lookupA st'.stats d.owner = none) := by
  have hfeele : (split d.price mkt.platform_fee_percentage).1 ≤ d.price := by
    have hmul : d.price * mkt.platform_fee_percentage ≤ d.price * 100 :=
      Nat.mul_le_mul_left _ (le_trans hfp (by norm_num))
    calc d.price * mkt.platform_fee_percentage / 100
        ≤ d.price * 100 / 100 := Nat.div_le_div_right hmul
      _ = d.price := Nat.mul_div_cancel _ (by norm_num)
  obtain ⟨bal1, hb1, hbuyer1⟩ :
      ∃ bal1, (if (split d.price mkt.platform_fee_percentage).1 > 0 then
          coinTransfer st.bal b mkt.platform_fee_recipient
            (split d.price mkt.platform_fee_percentage).1
        else some st.bal) = some bal1 ∧
        (split d.price mkt.platform_fee_percentage).2 ≤ coinBalance bal1 b := by
    by_cases hfee0 : (split d.price mkt.platform_fee_percentage).1 > 0
    · refine ⟨_, by rw [if_pos hfee0,
        coinTransfer_some _ (le_trans hfeele hbal)], ?_⟩
      have hsrc := coinTransfer_balance_src
        (@coinTransfer_some st.bal b (split d.price mkt.platform_fee_percentage).1
          mkt.platform_fee_recipient (le_trans hfeele hbal))
      rw [hsrc.2]
      by_cases hr : b = mkt.platform_fee_recipient
      · rw [if_pos hr.symm]
        exact le_trans (Nat.sub_le _ _) hbal
      · rw [if_neg (fun hh => hr hh.symm)]
        exact le_trans (Nat.sub_le_sub_right hbal _) (le_refl _)
    · exact ⟨st.bal, by rw [if_neg hfee0],
        le_trans (Nat.sub_le _ _) hbal⟩
  obtain ⟨bal2, hb2⟩ : ∃ bal2, coinTransfer bal1 b d.owner
      (split d.price mkt.platform_fee_percentage).2 = some bal2 :=
    ⟨_, coinTransfer_some _ hbuyer1⟩
  have hrun : purchase_dataset st b did now =
      .ok (purchasePost st b did now mkt idx d bal2) := by
    unfold purchase_dataset
    rw [hm]
    dsimp only
    rw [hf]
    dsimp only
    rw [hg]
    dsimp only
    rw [if_neg (by simp [hact]), if_neg hown,
      if_neg (by simp [hnp]), if_neg (by simp [hbal] : ¬ ¬ coinBalance st.bal b ≥ d.price)]
    try dsimp only
    rw [hb1]
    try dsimp only
    rw [hb2]
    rfl
  refine ⟨purchasePost st b did now mkt idx d bal2,
    { mkt with
      datasets := mkt.datasets.set idx
        { d with total_purchases := d.total_purchases + 1 },
      purchases := mkt.purchases ++
        [{ dataset_id := did, buyer := b, seller := d.owner,
           price := d.price, purchased_at := now }] },
    hrun, ?_, rfl, rfl, ?_, ?_, ?_⟩
  · simp [purchasePost, purchaseMkt, lookupA_setA]
  · rw [show (purchasePost st b did now mkt idx d bal2).stats =
      sellerStatsUpd (buyerStatsUpd st.stats b d.price) d.owner
        (split d.price mkt.platform_fee_percentage).2 from rfl,
      lookupA_sellerStatsUpd_ne _ _ hown, lookupA_buyerStatsUpd_self]
  · intro ss hss
    rw [show (purchasePost st b did now mkt idx d bal2).stats =
      sellerStatsUpd (buyerStatsUpd st.stats b d.price) d.owner
        (split d.price mkt.platform_fee_percentage).2 from rfl,
      lookupA_sellerStatsUpd_some _ _
        (by rw [lookupA_buyerStatsUpd_ne _ _ (fun hh => hown hh.symm)]; exact hss)]
  · intro hnone
    rw [show (purchasePost st b did now mkt idx d bal2).stats =
      sellerStatsUpd (buyerStatsUpd st.stats b d.price) d.owner
        (split d.price mkt.platform_fee_percentage).2 from rfl,
      lookupA_sellerStatsUpd_none _ _
        (by rw [lookupA_buyerStatsUpd_ne _ _ (fun hh => hown hh.symm)]; exact hnone)]

/-- Witness for C2 at a concrete state: buyer 2 purchases dataset 1 from
seller 1 for 100 with a 5% fee, seller stats exist. -/
theorem purchase_success_effects_witness :
    ∃ st' mkt', purchase_dataset wSt 2 1 7 = .ok st' ∧
      lookupA st'.mkts dataDexAddr = some mkt' ∧
      mkt'.purchases = wMkt.purchases ++
        [{ dataset_id := 1, buyer := 2, seller := wDataset.owner,
           price := wDataset.price, purchased_at := 7 }] ∧
      mkt'.datasets = wMkt.datasets.set 0
        { wDataset with total_purchases := wDataset.total_purchases + 1 } ∧
      lookupA st'.stats 2 = some
        { (lookupA wSt.stats 2).getD zeroStats with
            datasets_purchased :=
              ((lookupA wSt.stats 2).getD zeroStats).datasets_purchased + 1,
            total_spent :=
              ((lookupA wSt.stats 2).getD zeroStats).total_spent + wDataset.price } ∧
      (∀ ss, lookupA wSt.stats wDataset.owner = some ss →
        lookupA st'.stats wDataset.owner = some
          { ss with total_earned := ss.total_earned +
              (split wDataset.price wMkt.platform_fee_percentage).2 }) ∧
      (lookupA wSt.stats wDataset.owner = none →
        lookupA st'.stats wDataset.owner = none) :=
  purchase_success_effects wSt 2 1 7 wMkt 0 wDataset rfl (by decide) rfl rfl rfl
    (by decide) rfl (by decide)

/-! ## C4: self-purchase -/

/-- Counterexample to C4 as stated: address 1 owns the (deactivated) dataset 1
and tries to buy it; the call aborts with `datasetNotFound`, not
`Unauthorized`, because the `is_active` check runs before the ownership
check. -/
theorem self_purchase_inactive_counterexample :
    purchase_dataset wStInactive 1 1 0 = .error .datasetNotFound ∧
    MErr.datasetNotFound ≠ MErr.unauthorized := by
  exact ⟨rfl, by decide⟩

/-- C4 (amended).  A purchase in which the buyer is the dataset's owner always
fails, but the error depends on the dataset's state: `Unauthorized` when the
dataset is active, `datasetNotFound` when it has been deactivated (the active
check precedes the ownership check in the source). -/
theorem self_purchase_always_fails
    (st : MState) (b did now : Nat) (mkt : DataMarketplace) (idx : Nat) (d : Dataset)
    (hm : lookupA st.mkts dataDexAddr = some mkt)
    (hf : find_dataset_by_id mkt.datasets did = some idx)
    (hg : mkt.datasets[idx]? = some d)
    (hown : d.owner = b) :
    purchase_dataset st b did now =
      .error (if d.is_active then MErr.unauthorized else MErr.datasetNotFound) := by
  unfold purchase_dataset
  rw [hm]
  dsimp only
  rw [hf]
  dsimp only
  rw [hg]
  dsimp only
  by_cases hact : d.is_active = true
  · rw [if_neg (by simp [hact]), if_pos hown, if_pos hact]
  · rw [if_pos hact, if_neg hact]

/-- Witness for the amended C4: owner 1 self-purchasing the inactive dataset
fails with `datasetNotFound`. -/
theorem self_purchase_always_fails_witness :
    purchase_dataset wStInactive 1 1 0 =
      .error (if wDatasetInactive.is_active then MErr.unauthorized
              else MErr.datasetNotFound) :=
  self_purchase_always_fails wStInactive 1 1 0
    { wMkt with datasets := [wDatasetInactive] } 0 wDatasetInactive rfl rfl rfl rfl

/-! ## Milestone-loop lemmas -/

theorem chkStep_mem_skip (n : Nat) (s : ChkSt) (m : Milestone)
    (h : m.id ∈ s.achieved) : chkStep n s m = s := by
  unfold chkStep
  rw [if_neg]
  rintro ⟨-, hc, -⟩
  exact hc (by simpa using h)

theorem chkStep_balance_le (n : Nat) (s : ChkSt) (m : Milestone) :
    (chkStep n s m).balance ≤ s.balance := by
  unfold chkStep
  split
  · exact Nat.sub_le _ _
  · exact le_refl _

theorem chkRun_balance_le (n : Nat) (s : ChkSt) (ms : List Milestone) :
    (chkRun n s ms).balance ≤ s.balance := by
  induction ms generalizing s with
  | nil => exact le_refl _
  | cons m rest ih =>
      exact le_trans (ih (chkStep n s m)) (chkStep_balance_le n s m)

theorem chkStep_achieved_mono (n : Nat) (s : ChkSt) (m : Milestone) {x : Nat}
    (h : x ∈ s.achieved) : x ∈ (chkStep n s m).achieved := by
  unfold chkStep
  split
  · exact List.mem_append_left _ h
  · exact h

theorem chkRun_achieved_mono (n : Nat) (s : ChkSt) (ms : List Milestone) {x : Nat}
    (h : x ∈ s.achieved) : x ∈ (chkRun n s ms).achieved := by
  induction ms generalizing s with
  | nil => exact h
  | cons m rest ih =>
      exact ih (chkStep n s m) (chkStep_achieved_mono n s m h)

theorem chkStep_conserve (n : Nat) (s : ChkSt) (m : Milestone) :
    (chkStep n s m).balance + (chkStep n s m).total = s.balance + s.total := by
  unfold chkStep
  split
  · rename_i hcond
    obtain ⟨-, -, -, hbal⟩ := hcond
    dsimp only
    omega
  · rfl

theorem chkRun_conserve (n : Nat) (s : ChkSt) (ms : List Milestone) :
    (chkRun n s ms).balance + (chkRun n s ms).total = s.balance + s.total := by
  induction ms generalizing s with
  | nil => rfl
  | cons m rest ih =>
      calc (chkRun n (chkStep n s m) rest).balance + (chkRun n (chkStep n s m) rest).total
          = (chkStep n s m).balance + (chkStep n s m).total := ih (chkStep n s m)
        _ = s.balance + s.total := chkStep_conserve n s m

theorem chkStep_nodup (n : Nat) (s : ChkSt) (m : Milestone)
    (h : s.achieved.Nodup) : (chkStep n s m).achieved.Nodup := by
  unfold chkStep
  split
  · rename_i hcond
    obtain ⟨-, hnc, -, -⟩ := hcond
    dsimp only
    rw [List.nodup_append]
    exact ⟨h, List.nodup_singleton _, by simpa using fun hmem => hnc (by simpa using hmem)⟩
  · exact h

theorem chkRun_nodup (n : Nat) (s : ChkSt) (ms : List Milestone)
    (h : s.achieved.Nodup) : (chkRun n s ms).achieved.Nodup := by
  induction ms generalizing s with
  | nil => exact h
  | cons m rest ih => exact ih (chkStep n s m) (chkStep_nodup n s m h)

theorem chkRun_idem (n : Nat) (ms : List Milestone) (s : ChkSt) :
    chkRun n (chkRun n s ms) ms = chkRun n s ms := by
  induction ms generalizing s with
  | nil => rfl
  | cons m rest ih =>
      by_cases hg : (m.is_active = true ∧ ¬ s.achieved.contains m.id = true ∧
          n ≥ m.requirement ∧ s.balance ≥ m.reward_amount)
      · have hs1 : (chkStep n s m).achieved = s.achieved ++ [m.id] := by
          unfold chkStep
          rw [if_pos hg]
        have hmem : m.id ∈ (chkRun n (chkStep n s m) rest).achieved :=
          chkRun_achieved_mono n _ rest (by rw [hs1]; simp)
        have hskip := chkStep_mem_skip n _ m hmem
        calc chkRun n (chkRun n s (m :: rest)) (m :: rest)
            = chkRun n (chkStep n (chkRun n (chkStep n s m) rest) m) rest := rfl
          _ = chkRun n (chkRun n (chkStep n s m) rest) rest := by rw [hskip]
          _ = chkRun n (chkStep n s m) rest := ih _
          _ = chkRun n s (m :: rest) := rfl
      · have hs1 : chkStep n s m = s := by
          unfold chkStep
          rw [if_neg hg]
        have hskip : chkStep n (chkRun n s rest) m = chkRun n s rest := by
          by_cases hact : m.is_active = true
          · by_cases hcont : m.id ∈ s.achieved
            · exact chkStep_mem_skip n _ m (chkRun_achieved_mono n s rest hcont)
            · by_cases hreq : n ≥ m.requirement
              · have hbal : ¬ s.balance ≥ m.reward_amount := fun hb =>
                  hg ⟨hact, by simpa using hcont, hreq, hb⟩
                unfold chkStep
                rw [if_neg]
                rintro ⟨-, -, -, hb⟩
                exact hbal (le_trans hb (chkRun_balance_le n s rest))
              · unfold chkStep
                rw [if_neg]
                rintro ⟨-, -, hr, -⟩
                exact hreq hr
          · unfold chkStep
            rw [if_neg]
            rintro ⟨ha, -⟩
            exact hact ha
        calc chkRun n (chkRun n s (m :: rest)) (m :: rest)
            = chkRun n (chkStep n (chkRun n (chkStep n s m) rest) m) rest := rfl
          _ = chkRun n (chkStep n (chkRun n s rest) m) rest := by rw [hs1]
          _ = chkRun n (chkRun n s rest) rest := by rw [hskip]
          _ = chkRun n s rest := ih _
          _ = chkRun n (chkStep n s m) rest := by rw [hs1]
          _ = chkRun n s (m :: rest) := rfl

/-- Computation rule for `check_milestones` when the pool exists. -/
theorem check_milestones_eq (st : RState) (user n now : Nat) (pool : RewardPool)
    (hp : lookupA st.pools dataDexAddr = some pool) :
    check_milestones st user n now =
      (let ach := (lookupA st.achievements user).getD
          { milestones_achieved := [], total_bonus_received := 0,
            last_milestone_check := now };
       let s1 := chkRun n
          { balance := pool.balance, total := pool.total_rewards_paid,
            achieved := ach.milestones_achieved } pool.milestones;
       .ok { st with
          pools := setA st.pools dataDexAddr
            { pool with balance := s1.balance, total_rewards_paid := s1.total },
          achievements := setA st.achievements user
            { ach with milestones_achieved := s1.achieved,
                       last_milestone_check := now } }) := by
  unfold check_milestones
  rw [hp]

/-! ## C7: evaluation is idempotent -/

/-- C7.  Running `check_milestones` twice in a row with the same uploaded
count leaves the achieved set and the pool balance (and paid total) exactly as
after the first run: the second evaluation adds nothing and debits nothing. -/
theorem check_milestones_idempotent
    (st : RState) (user n now1 now2 : Nat) (pool : RewardPool)
    (hp : lookupA st.pools dataDexAddr = some pool) :
    ∃ st1 st2 pool1 pool2 a1 a2,
      check_milestones st user n now1 = .ok st1 ∧
      check_milestones st1 user n now2 = .ok st2 ∧
      lookupA st1.pools dataDexAddr = some pool1 ∧
      lookupA st2.pools dataDexAddr = some pool2 ∧
      lookupA st1.achievements user = some a1 ∧
      lookupA st2.achievements user = some a2 ∧
      a2.milestones_achieved = a1.milestones_achieved ∧
      pool2.balance = pool1.balance ∧
      pool2.total_rewards_paid = pool1.total_rewards_paid := by
  have h1 := check_milestones_eq st user n now1 pool hp
  dsimp only at h1
  set ach := (lookupA st.achievements user).getD
      { milestones_achieved := [], total_bonus_received := 0,
        last_milestone_check := now1 } with hach
  set s1 := chkRun n
      { balance := pool.balance, total := pool.total_rewards_paid,
        achieved := ach.milestones_achieved } pool.milestones with hs1
  set pool1 : RewardPool :=
      { pool with balance := s1.balance, total_rewards_paid := s1.total } with hpool1
  set a1 : UserAchievements :=
      { ach with milestones_achieved := s1.achieved,
                 last_milestone_check := now1 } with ha1
  set st1 : RState :=
      { st with pools := setA st.pools dataDexAddr pool1,
                achievements := setA st.achievements user a1 } with hst1
  have hp1 : lookupA st1.pools dataDexAddr = some pool1 := by
    rw [hst1]
    simp [lookupA_setA]
  have hl1 : lookupA st1.achievements user = some a1 := by
    rw [hst1]
    simp [lookupA_setA]
  have h2 := check_milestones_eq st1 user n now2 pool1 hp1
  dsimp only at h2
  rw [hl1] at h2
  simp only [Option.getD_some] at h2
  have hrun2 : chkRun n
      { balance := s1.balance, total := s1.total,
        achieved := a1.milestones_achieved } pool.milestones = s1 := by
    have hcs : ({ balance := s1.balance, total := s1.total,
                  achieved := a1.milestones_achieved } : ChkSt) = s1 := rfl
    rw [hcs, hs1]
    exact chkRun_idem n pool.milestones _
  rw [hrun2] at h2
  refine ⟨st1, _, pool1,
    { pool1 with balance := s1.balance, total_rewards_paid := s1.total },
    a1,
    { a1 with milestones_achieved := s1.achieved, last_milestone_check := now2 },
    h1, h2, hp1, ?_, hl1, ?_, rfl, rfl, rfl⟩
  · simp [lookupA_setA]
  · simp [lookupA_setA]

/-- Witness for C7 at the concrete one-milestone pool `c6st`, user 7 with one
upload. -/
theorem check_milestones_idempotent_witness :
    ∃ st1 st2 pool1 pool2 a1 a2,
      check_milestones c6st 7 1 20 = .ok st1 ∧
      check_milestones st1 7 1 21 = .ok st2 ∧
      lookupA st1.pools dataDexAddr = some pool1 ∧
      lookupA st2.pools dataDexAddr = some pool2 ∧
      lookupA st1.achievements 7 = some a1 ∧
      lookupA st2.achievements 7 = some a2 ∧
      a2.milestones_achieved = a1.milestones_achieved ∧
      pool2.balance = pool1.balance ∧
      pool2.total_rewards_paid = pool1.total_rewards_paid :=
  check_milestones_idempotent c6st 7 1 20 21 c6pool rfl

/-! ## Inversion lemmas for the reward-system entry functions -/

theorem add_milestone_ok {st st' : RState} {admin : Nat} {n d : String}
    {req amt : Nat} (h : add_milestone st admin n d req amt = .ok st') :
    ∃ pool, lookupA st.pools dataDexAddr = some pool ∧
      pool.admin = admin ∧ 0 < amt ∧
      st' = addMilestonePost st pool n d req amt := by
  unfold add_milestone at h
  split at h
  · exact absurd h (by simp)
  next pool hp =>
    split at h
    · exact absurd h (by simp)
    next hadmin =>
      split at h
      · exact absurd h (by simp)
      next hamt =>
        refine ⟨pool, hp, not_not.mp hadmin, not_not.mp hamt, ?_⟩
        injection h with h
        exact h.symm

theorem pay_bonus_ok {st st' : RState} {admin r amt : Nat} {reason : String}
    {now : Nat} (h : pay_bonus_reward st admin r amt reason now = .ok st') :
    ∃ pool bal', lookupA st.pools dataDexAddr = some pool ∧
      pool.admin = admin ∧ 0 < amt ∧ amt ≤ pool.balance ∧
      coinTransfer st.bal admin r amt = some bal' ∧
      st' = payBonusPost st pool r amt reason now bal' := by
  unfold pay_bonus_reward at h
  split at h
  · exact absurd h (by simp)
  next pool hp =>
    split at h
    · exact absurd h (by simp)
    next hadmin =>
      split at h
      · exact absurd h (by simp)
      next hamt =>
        split at h
        · exact absurd h (by simp)
        next hbal =>
          split at h
          · exact absurd h (by simp)
          next bal' hb =>
            refine ⟨pool, bal', hp, not_not.mp hadmin, not_not.mp hamt,
              not_not.mp hbal, hb, ?_⟩
            injection h with h
            exact h.symm

theorem transfer_milestone_ok {st st' : RState} {admin r mid : Nat}
    (h : transfer_milestone_reward st admin r mid = .ok st') :
    ∃ pool m bal', lookupA st.pools dataDexAddr = some pool ∧
      pool.admin = admin ∧ findMilestone pool.milestones mid = some m ∧
      m.reward_amount ≤ pool.balance ∧
      coinTransfer st.bal admin r m.reward_amount = some bal' ∧
      st' = transferMsPost st pool m bal' := by
  unfold transfer_milestone_reward at h
  split at h
  · exact absurd h (by simp)
  next pool hp =>
    split at h
    · exact absurd h (by simp)
    next hadmin =>
      split at h
      · exact absurd h (by simp)
      next m hm =>
        split at h
        · exact absurd h (by simp)
        next hbal =>
          split at h
          · exact absurd h (by simp)
          next bal' hb =>
            refine ⟨pool, m, bal', hp, not_not.mp hadmin, hm,
              not_not.mp hbal, hb, ?_⟩
            injection h with h
            exact h.symm

theorem replenish_ok {st st' : RState} {admin amt : Nat}
    (h : replenish_pool st admin amt = .ok st') :
    ∃ pool bal', lookupA st.pools dataDexAddr = some pool ∧
      pool.admin = admin ∧ 0 < amt ∧
      coinTransfer st.bal admin admin amt = some bal' ∧
      st' = replenishPost st pool amt bal' := by
  unfold replenish_pool at h
  split at h
  · exact absurd h (by simp)
  next pool hp =>
    split at h
    · exact absurd h (by simp)
    next hadmin =>
      split at h
      · exact absurd h (by simp)
      next hamt =>
        split at h
        · exact absurd h (by simp)
        next bal' hb =>
          refine ⟨pool, bal', hp, not_not.mp hadmin, not_not.mp hamt, hb, ?_⟩
          injection h with h
          exact h.symm

theorem deactivate_milestone_ok {st st' : RState} {admin mid : Nat}
    (h : deactivate_milestone st admin mid = .ok st') :
    ∃ pool, lookupA st.pools dataDexAddr = some pool ∧ pool.admin = admin ∧
      st' = deactivateMsPost st pool mid := by
  unfold deactivate_milestone at h
  split at h
  · exact absurd h (by simp)
  next pool hp =>
    split at h
    · exact absurd h (by simp)
    next hadmin =>
      refine ⟨pool, hp, not_not.mp hadmin, ?_⟩
      injection h with h
      exact h.symm

theorem init_ach_ok {st st' : RState} {user now : Nat}
    (h : init_user_achievements st user now = .ok st') :
    lookupA st.achievements user = none ∧ st' = initAchPost st user now := by
  unfold init_user_achievements at h
  split at h
  · exact absurd h (by simp)
  next hnone =>
    refine ⟨Option.not_isSome_iff_eq_none.mp hnone, ?_⟩
    injection h with h
    exact h.symm

theorem check_milestones_ok {st st' : RState} {user n now : Nat}
    (h : check_milestones st user n now = .ok st') :
    ∃ pool, lookupA st.pools dataDexAddr = some pool ∧
      st' = checkPost st user n now pool := by
  unfold check_milestones at h
  split at h
  · exact absurd h (by simp)
  next pool hp =>
    refine ⟨pool, hp, ?_⟩
    injection h with h
    exact h.symm

theorem lookupA_addMilestonePost (st : RState) (pool : RewardPool)
    (n d : String) (req amt : Nat) :
    lookupA (addMilestonePost st pool n d req amt).pools dataDexAddr =
      some (addMsPool pool n d req amt) := by
  simp [addMilestonePost, lookupA_setA]

theorem create_default_milestones_pool {st st' : RState} {admin : Nat}
    (h : create_default_milestones st admin = .ok st') :
    ∀ pool, lookupA st.pools dataDexAddr = some pool →
      ∃ pool', lookupA st'.pools dataDexAddr = some pool' ∧
        pool'.balance = pool.balance ∧
        pool'.total_rewards_paid = pool.total_rewards_paid ∧
        st'.achievements = st.achievements := by
  unfold create_default_milestones at h
  split at h
  · exact absurd h (by simp)
  next st1 h1 =>
    split at h
    · exact absurd h (by simp)
    next st2 h2 =>
      split at h
      · exact absurd h (by simp)
      next st3 h3 =>
        intro pool hp
        obtain ⟨p1, hp1, -, -, he1⟩ := add_milestone_ok h1
        obtain ⟨p2, hp2, -, -, he2⟩ := add_milestone_ok h2
        obtain ⟨p3, hp3, -, -, he3⟩ := add_milestone_ok h3
        obtain ⟨p4, hp4, -, -, he4⟩ := add_milestone_ok h
        subst he1 he2 he3 he4
        rw [hp] at hp1
        injection hp1 with hp1
        subst hp1
        rw [lookupA_addMilestonePost] at hp2
        injection hp2 with hp2
        subst hp2
        rw [lookupA_addMilestonePost] at hp3
        injection hp3 with hp3
        subst hp3
        rw [lookupA_addMilestonePost] at hp4
        injection hp4 with hp4
        subst hp4
        exact ⟨_, lookupA_addMilestonePost _ _ _ _ _ _, rfl, rfl, rfl⟩

theorem applyROp_error {st : RState} {op : ROp} {e : RErr}
    (h : execROp st op = .error e) : applyROp st op = st := by
  unfold applyROp
  rw [h]

theorem applyROp_ok {st st1 : RState} {op : ROp}
    (h : execROp st op = .ok st1) : applyROp st op = st1 := by
  unfold applyROp
  rw [h]

theorem init_sys_cases {st st' : RState} {admin b : Nat}
    (h : init_reward_system st admin b = .ok st') :
    lookupA st.pools admin = none ∧
    ∃ bal', (if b > 0 then coinTransfer st.bal admin admin b
             else some st.bal) = some bal' ∧
      create_default_milestones
        { st with pools := setA st.pools admin (initPool admin b),
                  bal := bal' } admin = .ok st' := by
  unfold init_reward_system at h
  split at h
  · exact absurd h (by simp)
  next hfresh =>
    split at h
    · exact absurd h (by simp)
    next bal' hb =>
      exact ⟨Option.not_isSome_iff_eq_none.mp hfresh, bal', hb, h⟩

theorem checkPost_pool (st : RState) (user n now : Nat) (pool : RewardPool) :
    ∃ pool', lookupA (checkPost st user n now pool).pools dataDexAddr = some pool' ∧
      pool'.balance + pool'.total_rewards_paid =
        pool.balance + pool.total_rewards_paid ∧
      pool'.balance ≤ pool.balance ∧
      pool'.milestones = pool.milestones := by
  unfold checkPost
  dsimp only
  set ach := (lookupA st.achievements user).getD
      { milestones_achieved := [], total_bonus_received := 0,
        last_milestone_check := now } with hach
  set s1 := chkRun n
      { balance := pool.balance, total := pool.total_rewards_paid,
        achieved := ach.milestones_achieved } pool.milestones with hs1
  refine ⟨{ pool with balance := s1.balance, total_rewards_paid := s1.total },
    by simp [lookupA_setA], ?_, ?_, rfl⟩
  · show s1.balance + s1.total = pool.balance + pool.total_rewards_paid
    rw [hs1]
    exact chkRun_conserve n _ _
  · show s1.balance ≤ pool.balance
    rw [hs1]
    exact chkRun_balance_le n _ _

/-! ## C5: reward-pool payout safety -/

/-- C5.  The reward pool's balance is exactly conserved against payouts.  A
successful `pay_bonus_reward` or `transfer_milestone_reward` debits the pool
by exactly the paid amount (`balance_after + amount = balance_before`, so the
amount never exceeded the balance); an over-amount payout aborts with
`InsufficientFunds` and leaves the state unchanged; and under every operation
of the module the quantity `balance + total_rewards_paid` never decreases,
with any balance decrease exactly accounted for in `total_rewards_paid`
(covering the per-milestone debits of `check_milestones`). -/
theorem reward_pool_payout_safety :
    (∀ st admin r amt reason now pool,
      lookupA st.pools dataDexAddr = some pool → pool.admin = admin →
      0 < amt → amt ≤ pool.balance → amt ≤ coinBalance st.bal admin →
      ∃ st' pool', pay_bonus_reward st admin r amt reason now = .ok st' ∧
        lookupA st'.pools dataDexAddr = some pool' ∧
        pool'.balance + amt = pool.balance ∧
        pool'.total_rewards_paid = pool.total_rewards_paid + amt) ∧
    (∀ st admin r amt reason now pool,
      lookupA st.pools dataDexAddr = some pool → pool.admin = admin →
      0 < amt → pool.balance < amt →
      pay_bonus_reward st admin r amt reason now = .error .insufficientBalance ∧
      applyROp st (.payBonusOp admin r amt reason now) = st) ∧
    (∀ st admin r mid pool m,
      lookupA st.pools dataDexAddr = some pool → pool.admin = admin →
      findMilestone pool.milestones mid = some m →
      m.reward_amount ≤ pool.balance →
      m.reward_amount ≤ coinBalance st.bal admin →
      ∃ st' pool', transfer_milestone_reward st admin r mid = .ok st' ∧
        lookupA st'.pools dataDexAddr = some pool' ∧
        pool'.balance + m.reward_amount = pool.balance ∧
        pool'.total_rewards_paid = pool.total_rewards_paid + m.reward_amount) ∧
    (∀ st admin r mid pool m,
      lookupA st.pools dataDexAddr = some pool → pool.admin = admin →
      findMilestone pool.milestones mid = some m →
      pool.balance < m.reward_amount →
      transfer_milestone_reward st admin r mid = .error .insufficientBalance ∧
      applyROp st (.transferMilestoneOp admin r mid) = st) ∧
    (∀ st op pool,
      lookupA st.pools dataDexAddr = some pool →
      ∃ pool', lookupA (applyROp st op).pools dataDexAddr = some pool' ∧
        pool'.balance + pool'.total_rewards_paid ≥
          pool.balance + pool.total_rewards_paid ∧
        (pool'.balance < pool.balance →
          pool'.balance + pool'.total_rewards_paid =
            pool.balance + pool.total_rewards_paid)) := by
  refine ⟨?_, ?_, ?_, ?_, ?_⟩
  · intro st admin r amt reason now pool hp hadmin hamt hbal hcoin
    obtain ⟨bal', hb⟩ : ∃ bal', coinTransfer st.bal admin r amt = some bal' :=
      ⟨_, coinTransfer_some r hcoin⟩
    have hrun : pay_bonus_reward st admin r amt reason now =
        .ok (payBonusPost st pool r amt reason now bal') := by
      unfold pay_bonus_reward
      rw [hp]
      dsimp only
      rw [if_neg (not_not_intro hadmin), if_neg (not_not_intro hamt),
        if_neg (not_not_intro hbal)]
      rw [hb]
      rfl
    refine ⟨payBonusPost st pool r amt reason now bal',
      payBonusPool pool r amt reason now, hrun, ?_, ?_, rfl⟩
    · simp [payBonusPost, lookupA_setA]
    · exact Nat.sub_add_cancel hbal
  · intro st admin r amt reason now pool hp hadmin hamt hover
    have hrun : pay_bonus_reward st admin r amt reason now =
        .error .insufficientBalance := by
      unfold pay_bonus_reward
      rw [hp]
      dsimp only
      rw [if_neg (not_not_intro hadmin), if_neg (not_not_intro hamt),
        if_pos (not_le.mpr hover)]
    exact ⟨hrun, applyROp_error hrun⟩
  · intro st admin r mid pool m hp hadmin hm hbal hcoin
    obtain ⟨bal', hb⟩ : ∃ bal', coinTransfer st.bal admin r m.reward_amount = some bal' :=
      ⟨_, coinTransfer_some r hcoin⟩
    have hrun : transfer_milestone_reward st admin r mid =
        .ok (transferMsPost st pool m bal') := by
      unfold transfer_milestone_reward
      rw [hp]
      dsimp only
      rw [if_neg (not_not_intro hadmin)]
      rw [hm]
      dsimp only
      rw [if_neg (not_not_intro hbal)]
      rw [hb]
      rfl
    refine ⟨transferMsPost st pool m bal', transferMsPool pool m, hrun, ?_, ?_, rfl⟩
    · simp [transferMsPost, lookupA_setA]
    · exact Nat.sub_add_cancel hbal
  · intro st admin r mid pool m hp hadmin hm hover
    have hrun : transfer_milestone_reward st admin r mid =
        .error .insufficientBalance := by
      unfold transfer_milestone_reward
      rw [hp]
      dsimp only
      rw [if_neg (not_not_intro hadmin)]
      rw [hm]
      dsimp only
      rw [if_pos (not_le.mpr hover)]
    exact ⟨hrun, applyROp_error hrun⟩
  · intro st op pool hp
    cases hres : execROp st op with
    | error e =>
        rw [applyROp_error hres]
        exact ⟨pool, hp, le_refl _, fun hlt => absurd hlt (lt_irrefl _)⟩
    | ok st1 =>
        rw [applyROp_ok hres]
        cases op with
        | initSysOp admin b =>
            obtain ⟨hfresh, bal', -, hcr⟩ := init_sys_cases hres
            by_cases hda : admin = dataDexAddr
            · rw [hda, hp] at hfresh
              exact absurd hfresh (by simp)
            · have hlook : lookupA
                  (setA st.pools admin (initPool admin b)) dataDexAddr = some pool := by
                rw [lookupA_setA, if_neg hda]
                exact hp
              obtain ⟨pool', hl', hbal', htot', -⟩ :=
                create_default_milestones_pool hcr pool hlook
              refine ⟨pool', hl', ?_, ?_⟩
              · rw [hbal', htot']
              · intro hlt
                rw [hbal'] at hlt
                exact absurd hlt (lt_irrefl _)
        | addMilestoneOp admin n d req amt =>
            obtain ⟨p, hp2, -, -, he⟩ := add_milestone_ok hres
            rw [hp] at hp2
            injection hp2 with hp2
            rw [← hp2] at he
            subst he
            refine ⟨addMsPool pool n d req amt,
              lookupA_addMilestonePost st pool n d req amt, le_refl _, ?_⟩
            intro hlt
            exact absurd hlt (lt_irrefl _)
        | payBonusOp admin r amt reason now =>
            obtain ⟨p, bal', hp2, -, -, hble, -, he⟩ := pay_bonus_ok hres
            rw [hp] at hp2
            injection hp2 with hp2
            rw [← hp2] at he hble
            subst he
            refine ⟨payBonusPool pool r amt reason now,
              by simp [payBonusPost, lookupA_setA], ?_, ?_⟩
            · show pool.balance - amt + (pool.total_rewards_paid + amt) ≥
                pool.balance + pool.total_rewards_paid
              omega
            · intro _
              show pool.balance - amt + (pool.total_rewards_paid + amt) =
                pool.balance + pool.total_rewards_paid
              omega
        | transferMilestoneOp admin r mid =>
            obtain ⟨p, m, bal', hp2, -, -, hble, -, he⟩ := transfer_milestone_ok hres
            rw [hp] at hp2
            injection hp2 with hp2
            rw [← hp2] at he hble
            subst he
            refine ⟨transferMsPool pool m,
              by simp [transferMsPost, lookupA_setA], ?_, ?_⟩
            · show pool.balance - m.reward_amount +
                (pool.total_rewards_paid + m.reward_amount) ≥
                pool.balance + pool.total_rewards_paid
              omega
            · intro _
              show pool.balance - m.reward_amount +
                (pool.total_rewards_paid + m.reward_amount) =
                pool.balance + pool.total_rewards_paid
              omega
        | initAchOp user now =>
            obtain ⟨-, he⟩ := init_ach_ok hres
            subst he
            exact ⟨pool, hp, le_refl _, fun hlt => absurd hlt (lt_irrefl _)⟩
        | checkMilestonesOp user n now =>
            obtain ⟨p, hp2, he⟩ := check_milestones_ok hres
            rw [hp] at hp2
            injection hp2 with hp2
            rw [← hp2] at he
            subst he
            obtain ⟨pool', hl', hcons, -, -⟩ := checkPost_pool st user n now pool
            exact ⟨pool', hl', ge_of_eq hcons, fun _ => hcons⟩
        | replenishOp admin amt =>
            obtain ⟨p, bal', hp2, -, -, -, he⟩ := replenish_ok hres
            rw [hp] at hp2
            injection hp2 with hp2
            rw [← hp2] at he
            subst he
            refine ⟨replenishUpd pool amt,
              by simp [replenishPost, lookupA_setA], ?_, ?_⟩
            · show pool.balance + amt + pool.total_rewards_paid ≥
                pool.balance + pool.total_rewards_paid
              omega
            · intro hlt
              have hlt2 : pool.balance + amt < pool.balance := hlt
              omega
        | deactivateMilestoneOp admin mid =>
            obtain ⟨p, hp2, -, he⟩ := deactivate_milestone_ok hres
            rw [hp] at hp2
            injection hp2 with hp2
            rw [← hp2] at he
            subst he
            refine ⟨deactivateMsUpd pool mid,
              by simp [deactivateMsPost, lookupA_setA], le_refl _, ?_⟩
            intro hlt
            exact absurd hlt (lt_irrefl _)
        | fundROp a amt =>
            have he : st1 = { st with bal := coinDeposit st.bal a amt } := by
              have : execROp st (.fundROp a amt) =
                  .ok { st with bal := coinDeposit st.bal a amt } := rfl
              rw [this] at hres
              injection hres with hres
              exact hres.symm
            subst he
            exact ⟨pool, hp, le_refl _, fun hlt => absurd hlt (lt_irrefl _)⟩

/-- Witness for C5, each conjunct of the safety theorem instantiated on a
concrete pool: a bonus of 5000 and the milestone reward of 1_000_000 out of a
10_000_000 pool; the same payouts against an empty pool; and a fund operation
leaving the pool untouched. -/
theorem reward_pool_payout_safety_witness :
    (∃ st' pool', pay_bonus_reward c6st 0 7 5000 "bonus" 3 = .ok st' ∧
      lookupA st'.pools dataDexAddr = some pool' ∧
      pool'.balance + 5000 = c6pool.balance ∧
      pool'.total_rewards_paid = c6pool.total_rewards_paid + 5000) ∧
    (pay_bonus_reward c5stPoor 0 7 5000 "bonus" 3 = .error .insufficientBalance ∧
      applyROp c5stPoor (.payBonusOp 0 7 5000 "bonus" 3) = c5stPoor) ∧
    (∃ st' pool', transfer_milestone_reward c6st 0 7 1 = .ok st' ∧
      lookupA st'.pools dataDexAddr = some pool' ∧
      pool'.balance + c6ms.reward_amount = c6pool.balance ∧
      pool'.total_rewards_paid = c6pool.total_rewards_paid + c6ms.reward_amount) ∧
    (transfer_milestone_reward c5stPoor 0 7 1 = .error .insufficientBalance ∧
      applyROp c5stPoor (.transferMilestoneOp 0 7 1) = c5stPoor) ∧
    (∃ pool', lookupA (applyROp c6st (.fundROp 1 5)).pools dataDexAddr = some pool' ∧
      pool'.balance + pool'.total_rewards_paid ≥
        c6pool.balance + c6pool.total_rewards_paid ∧
      (pool'.balance < c6pool.balance →
        pool'.balance + pool'.total_rewards_paid =
          c6pool.balance + c6pool.total_rewards_paid)) := by
  refine ⟨?_, ?_, ?_, ?_, ?_⟩
  · exact reward_pool_payout_safety.1 c6st 0 7 5000 "bonus" 3 c6pool rfl rfl
      (by decide) (by decide) (by decide)
  · exact reward_pool_payout_safety.2.1 c5stPoor 0 7 5000 "bonus" 3 c6poolPoor
      rfl rfl (by decide) (by decide)
  · exact reward_pool_payout_safety.2.2.1 c6st 0 7 1 c6pool c6ms rfl rfl rfl
      (by decide) (by decide)
  · exact reward_pool_payout_safety.2.2.2.1 c5stPoor 0 7 1 c6poolPoor c6ms
      rfl rfl rfl (by decide)
  · exact reward_pool_payout_safety.2.2.2.2 c6st (.fundROp 1 5) c6pool rfl

/-! ## C9: initialization creates the four default milestones -/

/-- Computation rule for a successful `add_milestone`. -/
theorem add_milestone_eq (st : RState) (admin : Nat) (n d : String)
    (req amt : Nat) (pool : RewardPool)
    (hp : lookupA st.pools dataDexAddr = some pool)
    (hadmin : pool.admin = admin) (hamt : 0 < amt) :
    add_milestone st admin n d req amt = .ok (addMilestonePost st pool n d req amt) := by
  unfold add_milestone
  rw [hp]
  dsimp only
  rw [if_neg (not_not_intro hadmin), if_neg (not_not_intro hamt)]
  rfl

/-- C9.  A successful `initialize_reward_system` by the deployer leaves the
milestone table non-empty: it holds exactly the four default milestones with
ids 1-4, requirements 1, 5, 10, 25 uploads and rewards 1_000_000, 5_000_000,
10_000_000, 25_000_000, all active. -/
theorem init_reward_system_default_milestones
    (st : RState) (admin b : Nat)
    (hfresh : lookupA st.pools admin = none)
    (hdd : admin = dataDexAddr)
    (hbal : b ≤ coinBalance st.bal admin) :
    ∃ st' pool, init_reward_system st admin b = .ok st' ∧
      lookupA st'.pools dataDexAddr = some pool ∧
      pool.milestones =
        [{ id := 1, name := "First Upload",
           description := "Upload your first dataset to the marketplace",
           requirement := 1, reward_amount := 1000000, is_active := true },
         { id := 2, name := "Early Adopter",
           description := "Upload 5 datasets to the marketplace",
           requirement := 5, reward_amount := 5000000, is_active := true },
         { id := 3, name := "Power Seller",
           description := "Upload 10 datasets to the marketplace",
           requirement := 10, reward_amount := 10000000, is_active := true },
         { id := 4, name := "Data Champion",
           description := "Upload 25 datasets to the marketplace",
           requirement := 25, reward_amount := 25000000, is_active := true }] ∧
      pool.balance = b ∧ pool.next_milestone_id = 5 ∧ pool.admin = admin ∧
      pool.milestones ≠ [] ∧ (∀ m ∈ pool.milestones, m.is_active = true) := by
  subst hdd
  obtain ⟨bal1, hb1⟩ : ∃ bal1,
      (if b > 0 then coinTransfer st.bal dataDexAddr dataDexAddr b
       else some st.bal) = some bal1 := by
    by_cases hb0 : b > 0
    · exact ⟨_, by rw [if_pos hb0, coinTransfer_some dataDexAddr hbal]⟩
    · exact ⟨st.bal, by rw [if_neg hb0]⟩
  have hrun : init_reward_system st dataDexAddr b =
      create_default_milestones
        { st with pools := setA st.pools dataDexAddr (initPool dataDexAddr b),
                  bal := bal1 } dataDexAddr := by
    unfold init_reward_system
    rw [hfresh]
    dsimp only [Option.isSome]
    rw [if_neg (by simp)]
    rw [hb1]
  rw [hrun]
  set st0 : RState :=
    { st with pools := setA st.pools dataDexAddr (initPool dataDexAddr b),
              bal := bal1 }
  have hl0 : lookupA st0.pools dataDexAddr = some (initPool dataDexAddr b) := by
    simp [st0, lookupA_setA]
  set p0 := initPool dataDexAddr b with hp0d
  have h1 := add_milestone_eq st0 dataDexAddr "First Upload"
    "Upload your first dataset to the marketplace" 1 1000000 p0 hl0 rfl (by decide)
  set st1 := addMilestonePost st0 p0 "First Upload"
    "Upload your first dataset to the marketplace" 1 1000000 with hst1
  set p1 := addMsPool p0 "First Upload"
    "Upload your first dataset to the marketplace" 1 1000000 with hp1d
  have hl1 : lookupA st1.pools dataDexAddr = some p1 :=
    lookupA_addMilestonePost st0 p0 _ _ _ _
  have h2 := add_milestone_eq st1 dataDexAddr "Early Adopter"
    "Upload 5 datasets to the marketplace" 5 5000000 p1 hl1 rfl (by decide)
  set st2 := addMilestonePost st1 p1 "Early Adopter"
    "Upload 5 datasets to the marketplace" 5 5000000 with hst2
  set p2 := addMsPool p1 "Early Adopter"
    "Upload 5 datasets to the marketplace" 5 5000000 with hp2d
  have hl2 : lookupA st2.pools dataDexAddr = some p2 :=
    lookupA_addMilestonePost st1 p1 _ _ _ _
  have h3 := add_milestone_eq st2 dataDexAddr "Power Seller"
    "Upload 10 datasets to the marketplace" 10 10000000 p2 hl2 rfl (by decide)
  set st3 := addMilestonePost st2 p2 "Power Seller"
    "Upload 10 datasets to the marketplace" 10 10000000 with hst3
  set p3 := addMsPool p2 "Power Seller"
    "Upload 10 datasets to the marketplace" 10 10000000 with hp3d
  have hl3 : lookupA st3.pools dataDexAddr = some p3 :=
    lookupA_addMilestonePost st2 p2 _ _ _ _
  have h4 := add_milestone_eq st3 dataDexAddr "Data Champion"
    "Upload 25 datasets to the marketplace" 25 25000000 p3 hl3 rfl (by decide)
  set st4 := addMilestonePost st3 p3 "Data Champion"
    "Upload 25 datasets to the marketplace" 25 25000000 with hst4
  set p4 := addMsPool p3 "Data Champion"
    "Upload 25 datasets to the marketplace" 25 25000000 with hp4d
  have hl4 : lookupA st4.pools dataDexAddr = some p4 :=
    lookupA_addMilestonePost st3 p3 _ _ _ _
  have hcr : create_default_milestones st0 dataDexAddr = .ok st4 := by
    unfold create_default_milestones
    rw [h1]
    dsimp only
    rw [h2]
    dsimp only
    rw [h3]
    dsimp only
    rw [h4]
  have hms : p4.milestones =
      [{ id := 1, name := "First Upload",
         description := "Upload your first dataset to the marketplace",
         requirement := 1, reward_amount := 1000000, is_active := true },
       { id := 2, name := "Early Adopter",
         description := "Upload 5 datasets to the marketplace",
         requirement := 5, reward_amount := 5000000, is_active := true },
       { id := 3, name := "Power Seller",
         description := "Upload 10 datasets to the marketplace",
         requirement := 10, reward_amount := 10000000, is_active := true },
       { id := 4, name := "Data Champion",
         description := "Upload 25 datasets to the marketplace",
         requirement := 25, reward_amount := 25000000, is_active := true }] := rfl
  refine ⟨st4, p4, hcr, hl4, rfl, rfl, rfl, rfl,
    by rw [hms]; exact List.cons_ne_nil _ _, ?_⟩
  intro m hm
  rw [hms] at hm
  simp only [List.mem_cons, List.not_mem_nil, or_false] at hm
  rcases hm with rfl | rfl | rfl | rfl <;> rfl

/-- Witness for C9: a fresh ledger, deployer at `@DataDex` with 1000 coins,
initial balance 500. -/
theorem init_reward_system_default_milestones_witness :
    ∃ st' pool, init_reward_system c9st dataDexAddr 500 = .ok st' ∧
      lookupA st'.pools dataDexAddr = some pool ∧
      pool.milestones =
        [{ id := 1, name := "First Upload",
           description := "Upload your first dataset to the marketplace",
           requirement := 1, reward_amount := 1000000, is_active := true },
         { id := 2, name := "Early Adopter",
           description := "Upload 5 datasets to the marketplace",
           requirement := 5, reward_amount := 5000000, is_active := true },
         { id := 3, name := "Power Seller",
           description := "Upload 10 datasets to the marketplace",
           requirement := 10, reward_amount := 10000000, is_active := true },
         { id := 4, name := "Data Champion",
           description := "Upload 25 datasets to the marketplace",
           requirement := 25, reward_amount := 25000000, is_active := true }] ∧
      pool.balance = 500 ∧ pool.next_milestone_id = 5 ∧
      pool.admin = dataDexAddr ∧
      pool.milestones ≠ [] ∧ (∀ m ∈ pool.milestones, m.is_active = true) :=
  init_reward_system_default_milestones c9st dataDexAddr 500 rfl rfl (by decide)

/-! ## List helpers for dataset updates -/

theorem set_self_of_getElem {α : Type} {l : List α} {i : Nat} {a : α}
    (h : l[i]? = some a) : l.set i a = l := by
  induction l generalizing i with
  | nil => simp at h
  | cons x xs ih =>
      cases i with
      | zero =>
          have hx : x = a := by simpa using h
          subst hx
          rfl
      | succ j =>
          have hj : xs[j]? = some a := by simpa using h
          show x :: xs.set j a = x :: xs
          rw [ih hj]

theorem mem_set_same_id_owner {l : List Dataset} {idx : Nat} {d0 : Dataset}
    (dn : Dataset)
    (hg : l[idx]? = some d0) (hid : dn.id = d0.id) (hown : dn.owner = d0.owner) :
    ∀ d ∈ l, ∃ d', d' ∈ l.set idx dn ∧ d'.id = d.id ∧ d'.owner = d.owner := by
  intro d hd
  obtain ⟨j, hj⟩ := List.mem_iff_getElem?.mp hd
  by_cases hij : idx = j
  · subst hij
    rw [hg] at hj
    injection hj with hj
    have hlen : idx < l.length := (List.getElem?_eq_some.mp hg).1
    have hmem : dn ∈ l.set idx dn :=
      List.getElem?_mem (List.getElem?_set_eq_of_lt dn hlen)
    exact ⟨dn, hmem, by rw [hid, hj], by rw [hown, hj]⟩
  · have hmem : d ∈ l.set idx dn :=
      List.getElem?_mem (by rw [List.getElem?_set_ne hij]; exact hj)
    exact ⟨d, hmem, rfl, rfl⟩

theorem map_id_set {l : List Dataset} {idx : Nat} {d0 : Dataset} (dn : Dataset)
    (hg : l[idx]? = some d0) (hid : dn.id = d0.id) :
    (l.set idx dn).map Dataset.id = l.map Dataset.id := by
  rw [List.map_set]
  apply set_self_of_getElem
  rw [List.getElem?_map, hg]
  simp [hid]

/-! ## Inversion lemmas for the marketplace entry functions -/

theorem init_marketplace_ok {st st' : MState} {admin fee recip : Nat}
    (h : init_marketplace st admin fee recip = .ok st') :
    lookupA st.mkts admin = none ∧ fee ≤ 20 ∧
    st' = { st with mkts := setA st.mkts admin (emptyMkt fee recip) } := by
  unfold init_marketplace at h
  split at h
  · exact absurd h (by simp)
  next hfresh =>
    split at h
    · exact absurd h (by simp)
    next hfee =>
      refine ⟨Option.not_isSome_iff_eq_none.mp hfresh, not_not.mp hfee, ?_⟩
      injection h with h
      exact h.symm

theorem upload_ok {st st' : MState} {acct : Nat} {ih t dsc c : String}
    {price now : Nat}
    (h : upload_dataset st acct ih t dsc c price now = .ok st') :
    0 < price ∧ ∃ mkt, lookupA st.mkts dataDexAddr = some mkt ∧
      st' = uploadPost st mkt acct ih t dsc c price now := by
  unfold upload_dataset at h
  split at h
  · exact absurd h (by simp)
  next hpr =>
    split at h
    · exact absurd h (by simp)
    next mkt hm =>
      refine ⟨not_not.mp hpr, mkt, hm, ?_⟩
      injection h with h
      exact h.symm

theorem deactivate_ok {st st' : MState} {owner_addr did : Nat}
    (h : deactivate_dataset st owner_addr did = .ok st') :
    ∃ mkt idx d, lookupA st.mkts dataDexAddr = some mkt ∧
      find_dataset_by_id mkt.datasets did = some idx ∧
      mkt.datasets[idx]? = some d ∧ d.owner = owner_addr ∧
      st' = setDatasetPost st mkt idx { d with is_active := false } := by
  unfold deactivate_dataset at h
  split at h
  · exact absurd h (by simp)
  next mkt hm =>
    split at h
    · exact absurd h (by simp)
    next idx hf =>
      split at h
      · exact absurd h (by simp)
      next d hg =>
        split at h
        · exact absurd h (by simp)
        next hown =>
          refine ⟨mkt, idx, d, hm, hf, hg, not_not.mp hown, ?_⟩
          injection h with h
          exact h.symm

theorem update_price_ok {st st' : MState} {owner_addr did newp : Nat}
    (h : update_dataset_price st owner_addr did newp = .ok st') :
    0 < newp ∧ ∃ mkt idx d, lookupA st.mkts dataDexAddr = some mkt ∧
      find_dataset_by_id mkt.datasets did = some idx ∧
      mkt.datasets[idx]? = some d ∧ d.owner = owner_addr ∧
      st' = setDatasetPost st mkt idx { d with price := newp } := by
  unfold update_dataset_price at h
  split at h
  · exact absurd h (by simp)
  next hpr =>
    split at h
    · exact absurd h (by simp)
    next mkt hm =>
      split at h
      · exact absurd h (by simp)
      next idx hf =>
        split at h
        · exact absurd h (by simp)
        next d hg =>
          split at h
          · exact absurd h (by simp)
          next hown =>
            refine ⟨not_not.mp hpr, mkt, idx, d, hm, hf, hg,
              not_not.mp hown, ?_⟩
            injection h with h
            exact h.symm

theorem applyOp_error {st : MState} {op : MOp} {e : MErr}
    (h : execOp st op = .error e) : applyOp st op = st := by
  unfold applyOp
  rw [h]

theorem applyOp_ok {st st1 : MState} {op : MOp}
    (h : execOp st op = .ok st1) : applyOp st op = st1 := by
  unfold applyOp
  rw [h]

/-! ## Marketplace well-formedness preservation -/

theorem mwf_empty (fee recip : Nat) : mwf (emptyMkt fee recip) := by
  refine ⟨?_, ?_, ?_, ?_⟩ <;> simp [emptyMkt]

theorem mwf_upload {mkt : DataMarketplace} (hwf : mwf mkt)
    (acct : Nat) (ih t dsc c : String) (price now : Nat) :
    mwf (uploadMkt mkt
      (newDataset acct ih t dsc c price now mkt.next_dataset_id)) := by
  obtain ⟨hids, hchain, hpw, hlink⟩ := hwf
  refine ⟨?_, ?_, hpw, ?_⟩
  · intro d hd
    rcases List.mem_append.mp hd with hmem | hmem
    · exact Nat.lt_succ_of_lt (hids d hmem)
    · rcases List.mem_singleton.mp hmem with rfl
      exact Nat.lt_succ_self _
  · show List.Chain' (fun a b => a < b)
      ((mkt.datasets ++ [newDataset acct ih t dsc c price now
        mkt.next_dataset_id]).map Dataset.id)
    rw [List.map_append]
    rw [List.chain'_append]
    refine ⟨hchain, List.chain'_singleton _, ?_⟩
    intro x hx y hy
    simp only [List.map_singleton, List.head?_cons, Option.mem_def,
      Option.some_inj] at hy
    have hx' : x ∈ mkt.datasets.map Dataset.id := List.mem_of_mem_getLast? hx
    obtain ⟨d, hd, rfl⟩ := List.mem_map.mp hx'
    rw [← hy]
    exact hids d hd
  · intro p hp
    obtain ⟨hne, d, hd, hprops⟩ := hlink p hp
    exact ⟨hne, d, List.mem_append_left _ hd, hprops⟩

theorem mwf_setDataset {mkt : DataMarketplace} {idx : Nat} {d0 dn : Dataset}
    (hwf : mwf mkt) (hg : mkt.datasets[idx]? = some d0)
    (hid : dn.id = d0.id) (hown : dn.owner = d0.owner) :
    mwf { mkt with datasets := mkt.datasets.set idx dn } := by
  obtain ⟨hids, hchain, hpw, hlink⟩ := hwf
  refine ⟨?_, ?_, hpw, ?_⟩
  · intro d hd
    rcases List.mem_or_eq_of_mem_set hd with hmem | rfl
    · exact hids d hmem
    · rw [hid]
      exact hids d0 (List.getElem?_mem hg)
  · show List.Chain' (fun a b => a < b) ((mkt.datasets.set idx dn).map Dataset.id)
    rw [map_id_set dn hg hid]
    exact hchain
  · intro p hp
    obtain ⟨hne, d, hd, hprops⟩ := hlink p hp
    obtain ⟨d', hd', hid', hown'⟩ := mem_set_same_id_owner dn hg hid hown d hd
    exact ⟨hne, d', hd', hid'.trans hprops.1, hown'.trans hprops.2⟩

theorem mwf_purchaseMkt {mkt : DataMarketplace} {idx : Nat} {d : Dataset}
    {b did now : Nat} (hwf : mwf mkt)
    (hf : find_dataset_by_id mkt.datasets did = some idx)
    (hg : mkt.datasets[idx]? = some d)
    (hown : ¬ d.owner = b)
    (hnp : has_purchased_dataset mkt.purchases b did = false) :
    mwf (purchaseMkt mkt idx d b did now) := by
  obtain ⟨hids, hchain, hpw, hlink⟩ := hwf
  have hdid : d.id = did := by
    obtain ⟨d1, hg1, hid1⟩ := find_dataset_some hf
    rw [hg] at hg1
    injection hg1 with hg1
    rw [hg1]
    exact hid1
  have hnp' : ∀ q ∈ mkt.purchases, ¬ (q.buyer = b ∧ q.dataset_id = did) := by
    intro q hq hqc
    have : has_purchased_dataset mkt.purchases b did = true :=
      (has_purchased_iff _ _ _).mpr ⟨q, hq, hqc.1, hqc.2⟩
    rw [hnp] at this
    cases this
  refine ⟨?_, ?_, ?_, ?_⟩
  · intro e he
    rcases List.mem_or_eq_of_mem_set he with hmem | rfl
    · exact hids e hmem
    · exact hids d (List.getElem?_mem hg)
  · show List.Chain' (fun a b => a < b)
      ((mkt.datasets.set idx
        { d with total_purchases := d.total_purchases + 1 }).map Dataset.id)
    rw [map_id_set { d with total_purchases := d.total_purchases + 1 } hg rfl]
    exact hchain
  · show List.Pairwise _ (mkt.purchases ++ [_])
    rw [List.pairwise_append]
    refine ⟨hpw, List.pairwise_singleton _ _, ?_⟩
    intro q hq y hy
    rcases List.mem_singleton.mp hy with rfl
    exact not_and_or.mp (hnp' q hq)
  · intro p hp
    rcases List.mem_append.mp hp with hmem | hmem
    · obtain ⟨hne, d1, hd1, hprops⟩ := hlink p hmem
      obtain ⟨d', hd', hid', hown'⟩ :=
        mem_set_same_id_owner { d with total_purchases := d.total_purchases + 1 }
          hg rfl rfl d1 hd1
      exact ⟨hne, d', hd', hid'.trans hprops.1, hown'.trans hprops.2⟩
    · rcases List.mem_singleton.mp hmem with rfl
      refine ⟨fun hh => hown hh.symm, ?_⟩
      have hlen : idx < mkt.datasets.length := (List.getElem?_eq_some.mp hg).1
      refine ⟨{ d with total_purchases := d.total_purchases + 1 },
        List.getElem?_mem (List.getElem?_set_eq_of_lt _ hlen), hdid, rfl⟩

theorem stWF_preserved (st : MState) (op : MOp) (h : stWF st) :
    stWF (applyOp st op) := by
  cases hres : execOp st op with
  | error e =>
      rw [applyOp_error hres]
      exact h
  | ok st1 =>
      rw [applyOp_ok hres]
      cases op with
      | initOp admin fee recip =>
          obtain ⟨-, hfee, he⟩ := init_marketplace_ok hres
          subst he
          intro a m hm
          dsimp only at hm
          rw [lookupA_setA] at hm
          by_cases ha : admin = a
          · rw [if_pos ha] at hm
            injection hm with hm
            subst hm
            exact mwf_empty fee recip
          · rw [if_neg ha] at hm
            exact h a m hm
      | uploadOp acct ih t dsc c price now =>
          obtain ⟨-, mkt, hm0, he⟩ := upload_ok hres
          subst he
          intro a m hm
          dsimp only [uploadPost] at hm
          rw [lookupA_setA] at hm
          by_cases ha : dataDexAddr = a
          · rw [if_pos ha] at hm
            injection hm with hm
            subst hm
            exact mwf_upload (h dataDexAddr mkt hm0) acct ih t dsc c price now
          · rw [if_neg ha] at hm
            exact h a m hm
      | purchaseOp b did now =>
          obtain ⟨mkt, idx, d, bal1, bal2, hm0, hf, hg, -, hown, hnp, -, -, -, he⟩ :=
            purchase_ok_spec hres
          subst he
          intro a m hm
          dsimp only [purchasePost] at hm
          rw [lookupA_setA] at hm
          by_cases ha : dataDexAddr = a
          · rw [if_pos ha] at hm
            injection hm with hm
            subst hm
            exact mwf_purchaseMkt (h dataDexAddr mkt hm0) hf hg hown hnp
          · rw [if_neg ha] at hm
            exact h a m hm
      | deactivateOp o did =>
          obtain ⟨mkt, idx, d, hm0, hf, hg, -, he⟩ := deactivate_ok hres
          subst he
          intro a m hm
          dsimp only [setDatasetPost] at hm
          rw [lookupA_setA] at hm
          by_cases ha : dataDexAddr = a
          · rw [if_pos ha] at hm
            injection hm with hm
            subst hm
            exact mwf_setDataset (h dataDexAddr mkt hm0) hg rfl rfl
          · rw [if_neg ha] at hm
            exact h a m hm
      | updatePriceOp o did newp =>
          obtain ⟨-, mkt, idx, d, hm0, hf, hg, -, he⟩ := update_price_ok hres
          subst he
          intro a m hm
          dsimp only [setDatasetPost] at hm
          rw [lookupA_setA] at hm
          by_cases ha : dataDexAddr = a
          · rw [if_pos ha] at hm
            injection hm with hm
            subst hm
            exact mwf_setDataset (h dataDexAddr mkt hm0) hg rfl rfl
          · rw [if_neg ha] at hm
            exact h a m hm
      | fundOp a amt =>
          have he : st1 = { st with bal := coinDeposit st.bal a amt } := by
            injection hres with hres
            exact hres.symm
          subst he
          intro a' m hm
          exact h a' m hm

theorem reachableM_wf {st : MState} (h : reachableM st) : stWF st := by
  obtain ⟨bal, ops, rfl⟩ := h
  have hgen : ∀ (l : List MOp) (s0 : MState), stWF s0 →
      stWF (l.foldl applyOp s0) := by
    intro l
    induction l with
    | nil => exact fun s0 h0 => h0
    | cons op rest ihr =>
        intro s0 h0
        exact ihr _ (stWF_preserved s0 op h0)
  refine hgen ops _ ?_
  intro a m hm
  simp [lookupA] at hm

/-! ## C3: no double purchase -/

/-- Counterexample to C3 as stated: in the reachable state where buyer 2 has
purchased dataset 1 and the owner has since deactivated it, a second purchase
attempt fails, but with `datasetNotFound`, not `AlreadyPurchased`. -/
theorem double_purchase_after_deactivation_counterexample :
    reachableM c3st ∧
    (lookupA c3st.mkts dataDexAddr).map
      (fun m => m.purchases.map (fun p => (p.buyer, p.dataset_id))) =
        some [(2, 1)] ∧
    purchase_dataset c3st 2 1 12 = .error .datasetNotFound ∧
    MErr.datasetNotFound ≠ MErr.datasetAlreadyPurchased :=
  ⟨⟨[], c3ops, rfl⟩, rfl, rfl, by decide⟩

/-- C3 (amended).  In every reachable state containing a purchase with a
given buyer and dataset id, a second `purchase_dataset` with the same pair
always fails — with `AlreadyPurchased` whenever the dataset is still active,
with `NotFound` when it has been deactivated — the failed transaction leaves
the state unchanged, and no two purchase records ever share the same
(buyer, datasetId). -/
theorem no_double_purchase
    (st : MState) (now : Nat) (hreach : reachableM st)
    (mkt : DataMarketplace) (hm : lookupA st.mkts dataDexAddr = some mkt)
    (p : Purchase) (hp : p ∈ mkt.purchases) :
    (∃ e, purchase_dataset st p.buyer p.dataset_id now = .error e) ∧
    (∀ idx d, find_dataset_by_id mkt.datasets p.dataset_id = some idx →
      mkt.datasets[idx]? = some d →
      purchase_dataset st p.buyer p.dataset_id now =
        .error (if d.is_active then MErr.datasetAlreadyPurchased
                else MErr.datasetNotFound)) ∧
    applyOp st (.purchaseOp p.buyer p.dataset_id now) = st ∧
    List.Pairwise (fun q r => q.buyer ≠ r.buyer ∨ q.dataset_id ≠ r.dataset_id)
      mkt.purchases := by
  obtain ⟨hids, hchain, hpw, hlink⟩ := reachableM_wf hreach dataDexAddr mkt hm
  obtain ⟨hne, d0, hd0, hid0, hown0⟩ := hlink p hp
  obtain ⟨idx0, hf0⟩ : ∃ idx,
      find_dataset_by_id mkt.datasets p.dataset_id = some idx := by
    cases hf : find_dataset_by_id mkt.datasets p.dataset_id with
    | none => exact absurd hid0 (find_dataset_none hf d0 hd0)
    | some idx => exact ⟨idx, rfl⟩
  have hnodup : (mkt.datasets.map Dataset.id).Nodup :=
    (List.chain'_iff_pairwise.mp hchain).imp (fun hlt => Nat.ne_of_lt hlt)
  have hsecond : ∀ idx d,
      find_dataset_by_id mkt.datasets p.dataset_id = some idx →
      mkt.datasets[idx]? = some d →
      purchase_dataset st p.buyer p.dataset_id now =
        .error (if d.is_active then MErr.datasetAlreadyPurchased
                else MErr.datasetNotFound) := by
    intro idx d hf hg
    have hd_mem : d ∈ mkt.datasets := List.getElem?_mem hg
    have hdid : d.id = p.dataset_id := by
      obtain ⟨d1, hg1, hid1⟩ := find_dataset_some hf
      rw [hg] at hg1
      injection hg1 with hg1
      rw [hg1]
      exact hid1
    have hdEq : d = d0 :=
      List.inj_on_of_nodup_map hnodup hd_mem hd0 (by rw [hdid, hid0])
    have howner : ¬ d.owner = p.buyer := by
      rw [hdEq, hown0]
      exact fun hh => hne hh.symm
    have hpur : has_purchased_dataset mkt.purchases p.buyer p.dataset_id = true :=
      (has_purchased_iff _ _ _).mpr ⟨p, hp, rfl, rfl⟩
    unfold purchase_dataset
    rw [hm]
    dsimp only
    rw [hf]
    dsimp only
    rw [hg]
    dsimp only
    by_cases hact : d.is_active = true
    · rw [if_neg (by simp [hact]), if_neg howner, if_pos hpur, if_pos hact]
    · rw [if_pos hact, if_neg hact]
  obtain ⟨d1, hg1, -⟩ := find_dataset_some hf0
  have herr := hsecond idx0 d1 hf0 hg1
  exact ⟨⟨_, herr⟩, hsecond, applyOp_error herr, hpw⟩

/-- Witness for the amended C3: in the reachable state `c3bst` the dataset is
still active, and buyer 2's second attempt at dataset 1 fails with the
state intact. -/
theorem no_double_purchase_witness :
    (∃ e, purchase_dataset c3bst c3bp.buyer c3bp.dataset_id 12 = .error e) ∧
    (∀ idx d, find_dataset_by_id c3bmkt.datasets c3bp.dataset_id = some idx →
      c3bmkt.datasets[idx]? = some d →
      purchase_dataset c3bst c3bp.buyer c3bp.dataset_id 12 =
        .error (if d.is_active then MErr.datasetAlreadyPurchased
                else MErr.datasetNotFound)) ∧
    applyOp c3bst (.purchaseOp c3bp.buyer c3bp.dataset_id 12) = c3bst ∧
    List.Pairwise (fun q r => q.buyer ≠ r.buyer ∨ q.dataset_id ≠ r.dataset_id)
      c3bmkt.purchases :=
  no_double_purchase c3bst 12 ⟨[], c3bops, rfl⟩ c3bmkt rfl c3bp (by decide)

/-! ## C8: dataset creation -/

/-- C8.  `upload_dataset` fails with `InvalidInput` exactly when the supplied
price is zero (the only non-positive `u64`); a successful creation assigns
the current `next_dataset_id` and bumps the counter, so ids are sequential;
in every reachable state dataset ids are strictly increasing (hence unique
and never reused, deactivation included, since datasets are never removed);
and no operation ever changes the owner recorded for a dataset id. -/
theorem dataset_creation_properties :
    (∀ st acct ih t dsc c price now,
      (upload_dataset st acct ih t dsc c price now = .error .invalidPrice ↔
        price = 0)) ∧
    (∀ st acct ih t dsc c price now st',
      upload_dataset st acct ih t dsc c price now = .ok st' →
      ∃ mkt, lookupA st.mkts dataDexAddr = some mkt ∧
        lookupA st'.mkts dataDexAddr = some (uploadMkt mkt
          (newDataset acct ih t dsc c price now mkt.next_dataset_id)) ∧
        (uploadMkt mkt (newDataset acct ih t dsc c price now
          mkt.next_dataset_id)).next_dataset_id = mkt.next_dataset_id + 1) ∧
    (∀ st, reachableM st → ∀ a m, lookupA st.mkts a = some m →
      List.Chain' (fun x y => x < y) (m.datasets.map Dataset.id) ∧
      ∀ d ∈ m.datasets, d.id < m.next_dataset_id) ∧
    (∀ st op a m, lookupA st.mkts a = some m →
      ∀ d ∈ m.datasets, ∃ m', lookupA (applyOp st op).mkts a = some m' ∧
        ∃ d' ∈ m'.datasets, d'.id = d.id ∧ d'.owner = d.owner) := by
  refine ⟨?_, ?_, ?_, ?_⟩
  · intro st acct ih t dsc c price now
    constructor
    · intro herr
      by_contra hne
      have hpos : 0 < price := Nat.pos_of_ne_zero hne
      unfold upload_dataset at herr
      rw [if_neg (not_not_intro hpos)] at herr
      cases hl : lookupA st.mkts dataDexAddr with
      | none =>
          rw [hl] at herr
          simp at herr
      | some mkt =>
          rw [hl] at herr
          simp at herr
    · intro h0
      subst h0
      unfold upload_dataset
      rw [if_pos (by decide)]
  · intro st acct ih t dsc c price now st' h
    obtain ⟨-, mkt, hm, he⟩ := upload_ok h
    subst he
    refine ⟨mkt, hm, ?_, rfl⟩
    dsimp only [uploadPost]
    rw [lookupA_setA]
    simp
  · intro st hreach a m hm
    obtain ⟨hids, hchain, -, -⟩ := reachableM_wf hreach a m hm
    exact ⟨hchain, hids⟩
  · intro st op a m hm d hd
    cases hres : execOp st op with
    | error e =>
        rw [applyOp_error hres]
        exact ⟨m, hm, d, hd, rfl, rfl⟩
    | ok st1 =>
        rw [applyOp_ok hres]
        cases op with
        | initOp admin fee recip =>
            obtain ⟨hfresh, -, he⟩ := init_marketplace_ok hres
            subst he
            by_cases ha : admin = a
            · rw [ha, hm] at hfresh
              exact absurd hfresh (by simp)
            · refine ⟨m, ?_, d, hd, rfl, rfl⟩
              dsimp only
              rw [lookupA_setA, if_neg ha]
              exact hm
        | uploadOp acct ih t dsc c price now =>
            obtain ⟨-, mkt, hm0, he⟩ := upload_ok hres
            subst he
            by_cases ha : dataDexAddr = a
            · subst ha
              rw [hm] at hm0
              injection hm0 with hm0
              subst hm0
              refine ⟨uploadMkt m (newDataset acct ih t dsc c price now m.next_dataset_id),
                ?_, d, List.mem_append_left _ hd, rfl, rfl⟩
              dsimp only [uploadPost]
              rw [lookupA_setA]
              simp
            · refine ⟨m, ?_, d, hd, rfl, rfl⟩
              dsimp only [uploadPost]
              rw [lookupA_setA, if_neg ha]
              exact hm
        | purchaseOp b did now =>
            obtain ⟨mkt, idx, dd, bal1, bal2, hm0, hf, hg, -, -, -, -, -, -, he⟩ :=
              purchase_ok_spec hres
            subst he
            by_cases ha : dataDexAddr = a
            · subst ha
              rw [hm] at hm0
              injection hm0 with hm0
              subst hm0
              obtain ⟨d', hd', hid', hown'⟩ :=
                mem_set_same_id_owner
                  { dd with total_purchases := dd.total_purchases + 1 }
                  hg rfl rfl d hd
              refine ⟨purchaseMkt m idx dd b did now, ?_, d', hd', hid', hown'⟩
              dsimp only [purchasePost]
              rw [lookupA_setA]
              simp
            · refine ⟨m, ?_, d, hd, rfl, rfl⟩
              dsimp only [purchasePost]
              rw [lookupA_setA, if_neg ha]
              exact hm
        | deactivateOp o did =>
            obtain ⟨mkt, idx, dd, hm0, hf, hg, -, he⟩ := deactivate_ok hres
            subst he
            by_cases ha : dataDexAddr = a
            · subst ha
              rw [hm] at hm0
              injection hm0 with hm0
              subst hm0
              obtain ⟨d', hd', hid', hown'⟩ :=
                mem_set_same_id_owner { dd with is_active := false }
                  hg rfl rfl d hd
              refine ⟨{ m with datasets := m.datasets.set idx { dd with is_active := false } },
                ?_, d', hd', hid', hown'⟩
              dsimp only [setDatasetPost]
              rw [lookupA_setA]
              simp
            · refine ⟨m, ?_, d, hd, rfl, rfl⟩
              dsimp only [setDatasetPost]
              rw [lookupA_setA, if_neg ha]
              exact hm
        | updatePriceOp o did newp =>
            obtain ⟨-, mkt, idx, dd, hm0, hf, hg, -, he⟩ := update_price_ok hres
            subst he
            by_cases ha : dataDexAddr = a
            · subst ha
              rw [hm] at hm0
              injection hm0 with hm0
              subst hm0
              obtain ⟨d', hd', hid', hown'⟩ :=
                mem_set_same_id_owner { dd with price := newp } hg rfl rfl d hd
              refine ⟨{ m with datasets := m.datasets.set idx { dd with price := newp } },
                ?_, d', hd', hid', hown'⟩
              dsimp only [setDatasetPost]
              rw [lookupA_setA]
              simp
            · refine ⟨m, ?_, d, hd, rfl, rfl⟩
              dsimp only [setDatasetPost]
              rw [lookupA_setA, if_neg ha]
              exact hm
        | fundOp a2 amt =>
            have he : st1 = { st with bal := coinDeposit st.bal a2 amt } := by
              injection hres with hres
              exact hres.symm
            subst he
            exact ⟨m, hm, d, hd, rfl, rfl⟩

/-- Witness for C8: a zero price is rejected on `wSt`; uploading at price 100
appends dataset id 2 and bumps the counter; the reachable state `c3bst` has
strictly increasing ids; and a price update leaves dataset 1's owner
intact. -/
theorem dataset_creation_properties_witness :
    (upload_dataset wSt 5 "h2" "t2" "d2" "c2" 0 9 = .error .invalidPrice ↔
      (0 : Nat) = 0) ∧
    (∃ mkt, lookupA wSt.mkts dataDexAddr = some mkt ∧
      lookupA (uploadPost wSt wMkt 5 "h2" "t2" "d2" "c2" 100 9).mkts dataDexAddr =
        some (uploadMkt mkt
          (newDataset 5 "h2" "t2" "d2" "c2" 100 9 mkt.next_dataset_id)) ∧
      (uploadMkt mkt (newDataset 5 "h2" "t2" "d2" "c2" 100 9
        mkt.next_dataset_id)).next_dataset_id = mkt.next_dataset_id + 1) ∧
    (List.Chain' (fun x y => x < y) (c3bmkt.datasets.map Dataset.id) ∧
      ∀ d ∈ c3bmkt.datasets, d.id < c3bmkt.next_dataset_id) ∧
    (∃ m', lookupA (applyOp wSt (.updatePriceOp 1 1 50)).mkts dataDexAddr =
        some m' ∧
      ∃ d' ∈ m'.datasets, d'.id = wDataset.id ∧ d'.owner = wDataset.owner) := by
  refine ⟨?_, ?_, ?_, ?_⟩
  · exact dataset_creation_properties.1 wSt 5 "h2" "t2" "d2" "c2" 0 9
  · exact dataset_creation_properties.2.1 wSt 5 "h2" "t2" "d2" "c2" 100 9
      (uploadPost wSt wMkt 5 "h2" "t2" "d2" "c2" 100 9) rfl
  · exact dataset_creation_properties.2.2.1 c3bst ⟨[], c3bops, rfl⟩
      dataDexAddr c3bmkt rfl
  · exact dataset_creation_properties.2.2.2 wSt (.updatePriceOp 1 1 50)
      dataDexAddr wMkt rfl wDataset (by decide)

/-! ## Achievement-record invariants -/

theorem create_default_milestones_ach {st st' : RState} {admin : Nat}
    (h : create_default_milestones st admin = .ok st') :
    st'.achievements = st.achievements := by
  unfold create_default_milestones at h
  split at h
  · exact absurd h (by simp)
  next st1 h1 =>
    split at h
    · exact absurd h (by simp)
    next st2 h2 =>
      split at h
      · exact absurd h (by simp)
      next st3 h3 =>
        obtain ⟨p1, -, -, -, he1⟩ := add_milestone_ok h1
        obtain ⟨p2, -, -, -, he2⟩ := add_milestone_ok h2
        obtain ⟨p3, -, -, -, he3⟩ := add_milestone_ok h3
        obtain ⟨p4, -, -, -, he4⟩ := add_milestone_ok h
        subst he1 he2 he3 he4
        rfl

theorem applyROp_achP (P : UserAchievements → Prop)
    (hfresh : ∀ now, P ⟨[], 0, now⟩)
    (hupd : ∀ ach n bal tot ms now, P ach →
      P { ach with
          milestones_achieved :=
            (chkRun n ⟨bal, tot, ach.milestones_achieved⟩ ms).achieved,
          last_milestone_check := now })
    {st : RState} (op : ROp)
    (hst : ∀ a ach, lookupA st.achievements a = some ach → P ach) :
    ∀ a ach, lookupA (applyROp st op).achievements a = some ach → P ach := by
  cases hres : execROp st op with
  | error e =>
      rw [applyROp_error hres]
      exact hst
  | ok st1 =>
      rw [applyROp_ok hres]
      cases op with
      | initSysOp admin b =>
          obtain ⟨-, bal', -, hcr⟩ := init_sys_cases hres
          intro a ach hl
          rw [create_default_milestones_ach hcr] at hl
          exact hst a ach hl
      | addMilestoneOp admin n d req amt =>
          obtain ⟨p, -, -, -, he⟩ := add_milestone_ok hres
          subst he
          exact hst
      | payBonusOp admin r amt reason now =>
          obtain ⟨p, bal', -, -, -, -, -, he⟩ := pay_bonus_ok hres
          subst he
          exact hst
      | transferMilestoneOp admin r mid =>
          obtain ⟨p, m, bal', -, -, -, -, -, he⟩ := transfer_milestone_ok hres
          subst he
          exact hst
      | replenishOp admin amt =>
          obtain ⟨p, bal', -, -, -, -, he⟩ := replenish_ok hres
          subst he
          exact hst
      | deactivateMilestoneOp admin mid =>
          obtain ⟨p, -, -, he⟩ := deactivate_milestone_ok hres
          subst he
          exact hst
      | fundROp a2 amt =>
          have he : st1 = { st with bal := coinDeposit st.bal a2 amt } := by
            injection hres with hres
            exact hres.symm
          subst he
          exact hst
      | initAchOp user now =>
          obtain ⟨-, he⟩ := init_ach_ok hres
          subst he
          intro a ach hl
          dsimp only [initAchPost] at hl
          rw [lookupA_setA] at hl
          by_cases ha : user = a
          · rw [if_pos ha] at hl
            injection hl with hl
            subst hl
            exact hfresh now
          · rw [if_neg ha] at hl
            exact hst a ach hl
      | checkMilestonesOp user n now =>
          obtain ⟨pool, -, he⟩ := check_milestones_ok hres
          subst he
          intro a ach hl
          dsimp only [checkPost] at hl
          rw [lookupA_setA] at hl
          by_cases ha : user = a
          · rw [if_pos ha] at hl
            injection hl with hl
            subst hl
            cases hl0 : lookupA st.achievements user with
            | none =>
                exact hupd _ n pool.balance pool.total_rewards_paid
                  pool.milestones now (hfresh now)
            | some a0 =>
                exact hupd a0 n pool.balance pool.total_rewards_paid
                  pool.milestones now (hst user a0 hl0)
          · rw [if_neg ha] at hl
            exact hst a ach hl

theorem reachableR_achP (P : UserAchievements → Prop)
    (hfresh : ∀ now, P ⟨[], 0, now⟩)
    (hupd : ∀ ach n bal tot ms now, P ach →
      P { ach with
          milestones_achieved :=
            (chkRun n ⟨bal, tot, ach.milestones_achieved⟩ ms).achieved,
          last_milestone_check := now })
    {st : RState} (h : reachableR st) :
    ∀ a ach, lookupA st.achievements a = some ach → P ach := by
  obtain ⟨bal, ops, rfl⟩ := h
  have hgen : ∀ (l : List ROp) (s0 : RState),
      (∀ a ach, lookupA s0.achievements a = some ach → P ach) →
      ∀ a ach, lookupA (l.foldl applyROp s0).achievements a = some ach →
        P ach := by
    intro l
    induction l with
    | nil => exact fun s0 h0 => h0
    | cons op rest ihr =>
        intro s0 h0
        exact ihr _ (applyROp_achP P hfresh hupd op h0)
  refine hgen ops _ ?_
  intro a ach hl
  simp [lookupA] at hl

/-! ## C6: a milestone is achieved at most once -/

/-- Counterexample to C6 as stated: there is no per-user Rewarded flag in the
code.  The admin can transfer milestone 1's reward to user 7 twice in a row;
both calls succeed, the pool is debited each time (10_000_000 → 9_000_000 →
8_000_000), and neither call records anything in the user achievement
table. -/
theorem milestone_repay_counterexample :
    transfer_milestone_reward c6st 0 7 1 = .ok c6st1 ∧
    transfer_milestone_reward c6st1 0 7 1 = .ok c6st2 ∧
    (lookupA c6st1.pools dataDexAddr).map RewardPool.balance = some 9000000 ∧
    (lookupA c6st2.pools dataDexAddr).map RewardPool.balance = some 8000000 ∧
    c6st1.achievements = c6st.achievements ∧
    c6st2.achievements = c6st1.achievements :=
  ⟨rfl, rfl, rfl, rfl, rfl, rfl⟩

/-- C6 (amended).  Per-user achieved sets behave as claimed for evaluation:
they never hold duplicates in any reachable state, an id once achieved is
never removed by any operation, and `check_milestones` skips (neither re-adds
nor re-debits) a milestone already in the set.  But the code keeps no
per-user Rewarded flag: `transfer_milestone_reward` leaves the achievement
table untouched, so nothing stops it being re-triggered (see the
counterexample). -/
theorem milestone_achieved_once :
    (∀ st, reachableR st → ∀ a ach, lookupA st.achievements a = some ach →
      ach.milestones_achieved.Nodup) ∧
    (∀ st op user x, x ∈ achievedOf st user →
      x ∈ achievedOf (applyROp st op) user) ∧
    (∀ n s m, m.id ∈ s.achieved → chkStep n s m = s) ∧
    (∀ st st' admin r mid,
      transfer_milestone_reward st admin r mid = .ok st' →
      st'.achievements = st.achievements) := by
  refine ⟨?_, ?_, ?_, ?_⟩
  · intro st hreach
    refine reachableR_achP (fun ach => ach.milestones_achieved.Nodup)
      (fun now => List.nodup_nil) ?_ hreach
    intro ach n bal tot ms now hP
    exact chkRun_nodup n ⟨bal, tot, ach.milestones_achieved⟩ ms hP
  · intro st op user x hx
    cases hres : execROp st op with
    | error e =>
        rw [applyROp_error hres]
        exact hx
    | ok st1 =>
        rw [applyROp_ok hres]
        cases op with
        | initSysOp admin b =>
            obtain ⟨-, bal', -, hcr⟩ := init_sys_cases hres
            unfold achievedOf
            rw [create_default_milestones_ach hcr]
            exact hx
        | addMilestoneOp admin n d req amt =>
            obtain ⟨p, -, -, -, he⟩ := add_milestone_ok hres
            subst he
            exact hx
        | payBonusOp admin r amt reason now =>
            obtain ⟨p, bal', -, -, -, -, -, he⟩ := pay_bonus_ok hres
            subst he
            exact hx
        | transferMilestoneOp admin r mid =>
            obtain ⟨p, m, bal', -, -, -, -, -, he⟩ := transfer_milestone_ok hres
            subst he
            exact hx
        | replenishOp admin amt =>
            obtain ⟨p, bal', -, -, -, -, he⟩ := replenish_ok hres
            subst he
            exact hx
        | deactivateMilestoneOp admin mid =>
            obtain ⟨p, -, -, he⟩ := deactivate_milestone_ok hres
            subst he
            exact hx
        | fundROp a2 amt =>
            have he : st1 = { st with bal := coinDeposit st.bal a2 amt } := by
              injection hres with hres
              exact hres.symm
            subst he
            exact hx
        | initAchOp u now =>
            obtain ⟨hnone, he⟩ := init_ach_ok hres
            subst he
            by_cases hu : u = user
            · subst hu
              unfold achievedOf at hx
              rw [hnone] at hx
              simp at hx
            · unfold achievedOf
              dsimp only [initAchPost]
              rw [lookupA_setA, if_neg hu]
              exact hx
        | checkMilestonesOp u n now =>
            obtain ⟨pool, -, he⟩ := check_milestones_ok hres
            subst he
            by_cases hu : u = user
            · subst hu
              unfold achievedOf
              dsimp only [checkPost]
              rw [lookupA_setA, if_pos rfl]
              cases hl0 : lookupA st.achievements u with
              | none =>
                  unfold achievedOf at hx
                  rw [hl0] at hx
                  simp at hx
              | some a0 =>
                  unfold achievedOf at hx
                  rw [hl0] at hx
                  exact chkRun_achieved_mono n _ pool.milestones hx
            · unfold achievedOf
              dsimp only [checkPost]
              rw [lookupA_setA, if_neg hu]
              exact hx
  · intro n s m hmem
    exact chkStep_mem_skip n s m hmem
  · intro st st' admin r mid h
    obtain ⟨p, m, bal', -, -, -, -, -, he⟩ := transfer_milestone_ok h
    subst he
    rfl

/-- Witness for the amended C6 at concrete states: user 7's achieved set in
the reachable state `c6rst` has no duplicates, re-running the evaluation
keeps milestone 1 achieved, an already-achieved milestone is skipped by the
loop, and paying out milestone 1 does not touch the achievement table. -/
theorem milestone_achieved_once_witness :
    c6rach.milestones_achieved.Nodup ∧
    1 ∈ achievedOf (applyROp c6rst (.checkMilestonesOp 7 6 21)) 7 ∧
    chkStep 1 ⟨10, 0, [1]⟩ c6ms = ⟨10, 0, [1]⟩ ∧
    c6st1.achievements = c6st.achievements :=
  ⟨milestone_achieved_once.1 c6rst ⟨[], c6rops, rfl⟩ 7 c6rach rfl,
   milestone_achieved_once.2.1 c6rst (.checkMilestonesOp 7 6 21) 7 1 (by decide),
   milestone_achieved_once.2.2.1 1 ⟨10, 0, [1]⟩ c6ms (by decide),
   milestone_achieved_once.2.2.2 c6st c6st1 0 7 1 rfl⟩

/-! ## C10: totalBonusReceived is never credited -/

/-- C10.  `total_bonus_received` stays zero forever: every reachable
achievement record carries `total_bonus_received = 0`, because
`pay_bonus_reward` only appends to the pool's bonus log and leaves the
recipient's achievement record untouched. -/
theorem total_bonus_never_credited :
    (∀ st, reachableR st → ∀ a ach, lookupA st.achievements a = some ach →
      ach.total_bonus_received = 0) ∧
    (∀ st st' admin r amt reason now,
      pay_bonus_reward st admin r amt reason now = .ok st' →
      st'.achievements = st.achievements) := by
  constructor
  · intro st hreach
    refine reachableR_achP (fun ach => ach.total_bonus_received = 0)
      (fun now => rfl) ?_ hreach
    intro ach n bal tot ms now hP
    exact hP
  · intro st st' admin r amt reason now h
    obtain ⟨p, bal', -, -, -, -, -, he⟩ := pay_bonus_ok h
    subst he
    rfl

/-- Witness for C10: user 7's record in the reachable state `c6rst` holds a
zero bonus total, and a concrete bonus payout leaves the achievement table
unchanged. -/
theorem total_bonus_never_credited_witness :
    c6rach.total_bonus_received = 0 ∧
    (applyROp c6st (.payBonusOp 0 7 5000 "bonus" 3)).achievements =
      c6st.achievements :=
  ⟨total_bonus_never_credited.1 c6rst ⟨[], c6rops, rfl⟩ 7 c6rach rfl,
   total_bonus_never_credited.2 c6st
     (applyROp c6st (.payBonusOp 0 7 5000 "bonus" 3)) 0 7 5000 "bonus" 3 rfl⟩

end DataDex
